import Mathlib

/-!
Verification of the discrete-event simulation core of the SDQI_VLE repository
(a non-hierarchical DEVS coordinator) against its natural-language
specification.

The development is a shallow embedding of the C++ sources:

* `src/vle/utils/PackageTable.cpp`  → `PackageTable`
* `src/vle/vpz/Condition.cpp`       → `Condition`
* `src/vle/devs/Coordinator.cpp`    → `Coordinator` and the functions
  `Coordinator.run`, `Coordinator.drainStep` / `Coordinator.drainLoop`
  (the two nested while-loops of `Coordinator::run`),
  `Coordinator.processInternalEvent`, `Coordinator.processExternalEvents`,
  `Coordinator.processRequestEvents`, `Coordinator.processObservationEvents`,
  `Coordinator.dispatchExternalEvent`, `Coordinator.delAtomicModel`,
  `Coordinator.init`.

Simulators, atomic graph models and views are identified by plain ids.
Simulated time is embedded as `Int` (the sources use a totally ordered
`devs::Time`; only order and equality of timestamps matter for the claims).
The behaviour of the atomic models behind the `Simulator` callback surface
(`output`, `internalTransition`, `externalTransition`, `confluentTransitions`,
`request`, `observation`) and of `View::processObservationEvent` is opaque to
the coordinator, so it is passed in as a record of oracles (`Dynamics`).

The `EventTable` class itself is not part of the given sources (only its
call sites are), so its operations (`popEvent`, `putInternalEvent`, …,
`delModelEvents`) are modelled from the specification, as documented on each
definition.

Side effects that the claims talk about but that leave no trace in the
coordinator state (calls into the models, destruction of event objects,
`Simulator::clear`, `boost::checked_deleter`) are made observable through an
`Act` trace emitted by each function and through ghost fields
(`destroyed`, `cleared`) of the `Coordinator` state.
-/

/-! ## Events (src/vle/devs: InternalEvent, ExternalEvent, RequestEvent,
ObservationEvent)

`ExternalEvent` carries source simulator, source port, destination simulator
and destination port; a `RequestEvent` is an `ExternalEvent` whose
`isRequest` flag is set (the sources use a subclass).  Attribute maps are
irrelevant to every claim and are omitted. -/

structure InternalEvent where
  time : Int
  model : Nat
deriving DecidableEq, Repr

structure ExternalEvent where
  time : Int
  source : Nat
  port : String
  target : Nat
  targetPort : String
  isRequest : Bool
deriving DecidableEq, Repr

structure ObservationEvent where
  time : Int
  model : Nat
  viewName : String
  port : String
deriving DecidableEq, Repr

/-- Result of `Dynamics::confluentTransitions` (`Event::INTERNAL` /
`Event::EXTERNAL`). -/
inductive ConfluentKind where
  | INTERNAL
  | EXTERNAL
deriving DecidableEq, Repr

/-! ## EventBagModel and CompleteEventBagModel

`EventBagModel`: for one simulator at one instant, at most one internal
event, a list of external events and a list of request events.
`CompleteEventBagModel`: the per-simulator bags at the current minimal time
plus the observation events at that time (`bag.states`). -/

structure EventBagModel where
  internal : Option InternalEvent
  externals : List ExternalEvent
  requests : List ExternalEvent
deriving DecidableEq, Repr

/-- `EventBagModel::empty()`. -/
def EventBagModel.isEmpty (b : EventBagModel) : Bool :=
  b.internal.isNone && b.externals.isEmpty && b.requests.isEmpty

structure CompleteEventBagModel where
  bags : List (Nat × EventBagModel)
  states : List ObservationEvent
deriving DecidableEq, Repr

/-- `CompleteEventBagModel::empty()`: no transition bag and no observation
event at the popped time. -/
def CompleteEventBagModel.isEmpty (b : CompleteEventBagModel) : Bool :=
  b.bags.isEmpty && b.states.isEmpty

/-! ## EventTable

Modelled from the spec: the `EventTable` class is not among the given source
files, only its call sites in `Coordinator.cpp` are.  Per the specification
(§4.1) it is a min-priority collection of events keyed by time; `popEvent`
returns every event whose time equals the current minimum, partitioned per
target simulator, with observation events kept in a separate sub-queue, and
removes them from the table; `delModelEvents` removes all pending events
mentioning a simulator as source or destination. -/

structure EventTable where
  internals : List InternalEvent
  externals : List ExternalEvent
  requests : List ExternalEvent
  observations : List ObservationEvent
deriving DecidableEq, Repr

def listMin : List Int → Option Int
  | [] => none
  | t :: ts =>
    some (match listMin ts with
          | none => t
          | some m => min t m)

/-- Modelled from the spec: all pending timestamps of the table. -/
def EventTable.allTimes (tbl : EventTable) : List Int :=
  tbl.internals.map (·.time) ++ tbl.externals.map (·.time) ++
    tbl.requests.map (·.time) ++ tbl.observations.map (·.time)

/-- Modelled from the spec: `EventTable::topEvent` / `getCurrentTime`, the
minimal pending timestamp. -/
def EventTable.topTime (tbl : EventTable) : Option Int :=
  listMin tbl.allTimes

/-- Modelled from the spec: the simulators having a transition event at
time `t`. -/
def EventTable.simsAt (tbl : EventTable) (t : Int) : List Nat :=
  (((tbl.internals.filter (fun e => e.time = t)).map (·.model)) ++
   ((tbl.externals.filter (fun e => e.time = t)).map (·.target)) ++
   ((tbl.requests.filter (fun e => e.time = t)).map (·.target))).dedup

/-- Modelled from the spec: the `EventBagModel` of simulator `s` at time
`t` (at most one internal event, the inbound externals, the inbound
requests). -/
def EventTable.bagFor (tbl : EventTable) (t : Int) (s : Nat) : EventBagModel :=
  { internal := (tbl.internals.filter (fun e => e.time = t && e.model == s)).head?
    externals := tbl.externals.filter (fun e => e.time = t && e.target == s)
    requests := tbl.requests.filter (fun e => e.time = t && e.target == s) }

/-- Modelled from the spec: `EventTable::popEvent` removes and returns every
event scheduled at the minimal pending time, as a `CompleteEventBagModel`. -/
def EventTable.popEvent (tbl : EventTable) : CompleteEventBagModel × EventTable :=
  match listMin tbl.allTimes with
  | none => ({ bags := [], states := [] }, tbl)
  | some t =>
    ({ bags := (tbl.simsAt t).map (fun s => (s, tbl.bagFor t s))
       states := tbl.observations.filter (fun e => e.time = t) },
     { internals := tbl.internals.filter (fun e => e.time ≠ t)
       externals := tbl.externals.filter (fun e => e.time ≠ t)
       requests := tbl.requests.filter (fun e => e.time ≠ t)
       observations := tbl.observations.filter (fun e => e.time ≠ t) })

/-- Modelled from the spec: `EventTable::delModelEvents(sim)` removes every
pending event mentioning `sim` (as target of an internal or observation
event, or as source or destination of an external or request event). -/
def EventTable.delModelEvents (tbl : EventTable) (sim : Nat) : EventTable :=
  { internals := tbl.internals.filter (fun e => e.model ≠ sim)
    externals := tbl.externals.filter (fun e => e.source ≠ sim ∧ e.target ≠ sim)
    requests := tbl.requests.filter (fun e => e.source ≠ sim ∧ e.target ≠ sim)
    observations := tbl.observations.filter (fun e => e.model ≠ sim) }

/-- Does the table hold any event mentioning simulator `s`? -/
def EventTable.mentionsSim (tbl : EventTable) (s : Nat) : Bool :=
  tbl.internals.any (fun e => e.model == s) ||
  tbl.externals.any (fun e => e.source == s || e.target == s) ||
  tbl.requests.any (fun e => e.source == s || e.target == s) ||
  tbl.observations.any (fun e => e.model == s)

/-- Does a per-simulator bag hold an event mentioning simulator `s`? -/
def EventBagModel.mentionsSim (b : EventBagModel) (s : Nat) : Bool :=
  (match b.internal with
   | some e => e.model == s
   | none => false) ||
  b.externals.any (fun e => e.source == s || e.target == s) ||
  b.requests.any (fun e => e.source == s || e.target == s)

/-- Does a complete bag hold an event mentioning simulator `s`? -/
def CompleteEventBagModel.mentionsSim (cb : CompleteEventBagModel) (s : Nat) : Bool :=
  cb.bags.any (fun p => p.2.mentionsSim s) || cb.states.any (fun e => e.model == s)

/-! ## PackageTable (src/vle/utils/PackageTable.cpp)

`m_table` embeds the `std::set<std::string>`; an `index` (a set iterator in
the sources) is embedded as the string element it designates, since set
iterators compare equal exactly when they designate the same element. -/

structure PackageTable where
  m_table : List String
  m_current : String
deriving DecidableEq, Repr

/-- `PackageTable::PackageTable()`: inserts the empty string and makes it
current. -/
def PackageTable.create : PackageTable :=
  { m_table := [""], m_current := "" }

/-- `std::set::insert`: the returned `second` flag tells whether the element
was newly inserted. -/
def PackageTable.insertSet (l : List String) (s : String) : List String × Bool :=
  if s ∈ l then (l, false) else (l ++ [s], true)

/-- `PackageTable::current(package)`: insert `package`; the current
selection is re-pointed only when the insertion actually happened. -/
def PackageTable.current (pt : PackageTable) (package : String) : PackageTable :=
  let r := PackageTable.insertSet pt.m_table package
  if r.2 then { m_table := r.1, m_current := package }
  else { pt with m_table := r.1 }

/-- `PackageTable::remove(i)`: throws `ArgError` when `i` designates the
current package (second component `true`), leaving the table untouched;
otherwise erases the entry.  The thrown/normal outcome is returned as a
`Bool` alongside the state after the call. -/
def PackageTable.remove (pt : PackageTable) (i : String) : PackageTable × Bool :=
  if pt.m_current = i then (pt, true)
  else ({ pt with m_table := pt.m_table.erase i }, false)

/-! ## Condition (src/vle/vpz/Condition.cpp)

A `Condition` is a map from port name to a `value::Set` (embedded as a list
of opaque values, here `Nat`), plus the `m_last_port` marker. The map is
embedded as an association list with unique keys; `std::map::insert` never
overwrites an existing key. -/

structure Condition where
  m_name : String
  ports : List (String × List Nat)
  m_last_port : String
deriving DecidableEq, Repr

/-- `Condition::add(portname)`: insert an empty value set only when the port
is absent; always re-point `m_last_port`. -/
def Condition.add (c : Condition) (portname : String) : Condition :=
  let ports :=
    if (c.ports.lookup portname).isNone then c.ports ++ [(portname, [])]
    else c.ports
  { c with ports := ports, m_last_port := portname }

/-- `Condition::del(portname)`. -/
def Condition.del (c : Condition) (portname : String) : Condition :=
  { c with ports := c.ports.filter (fun p => p.1 ≠ portname) }

/-- `Condition::addValueToPort(portname, value)`: append to the existing set
when the port exists (leaving `m_last_port` alone), otherwise insert a
fresh singleton set and re-point `m_last_port`. -/
def Condition.addValueToPort (c : Condition) (portname : String) (v : Nat) : Condition :=
  match c.ports.lookup portname with
  | none =>
    { c with ports := c.ports ++ [(portname, [v])], m_last_port := portname }
  | some _ =>
    { c with ports :=
        c.ports.map (fun p => if p.1 = portname then (p.1, p.2 ++ [v]) else p) }

/-! ## Coordinator state (src/vle/devs/Coordinator.cpp)

Fields mirror the members of `devs::Coordinator` used by the claims:
`m_currentTime`, the event table, `m_modelList` (atomic graph model id ↦
simulator id, an association list with unique keys standing for the
`std::map`), `m_viewList` (view name ↦ the simulators it observes, enough to
express `View::removeObservable`), `m_deletedSimulator` and `m_toDelete`.
`destroyed` and `cleared` are ghost fields recording which simulators were
actually freed (`boost::checked_deleter` in `run`) and on which
`Simulator::clear()` ran; the C++ heap has no counterpart here. -/

structure Coordinator where
  m_currentTime : Int
  m_eventTable : EventTable
  m_modelList : List (Nat × Nat)
  m_viewList : List (String × List Nat)
  m_deletedSimulator : List Nat
  m_toDelete : Nat
  destroyed : List Nat
  cleared : List Nat
deriving DecidableEq, Repr

/-- Structural connection lookup
(`graph::Model::getTargetPortList(port)` for a given source model): maps a
source simulator and source port to the destination (simulator, port)
pairs.  The graph library is an external collaborator of the core, so it is
an oracle parameter. -/
def Conns : Type := Nat → String → List (Nat × String)

/-- The atomic-model callback surface behind `Simulator` plus the view
reactions; opaque to the coordinator, hence a record of oracles.
`eventViewPorts sim` lists the (view name, port) subscriptions of the event
views observing `sim` (`EventView::get`). -/
structure Dynamics where
  confluent : Nat → InternalEvent → List ExternalEvent → ConfluentKind
  output : Nat → Int → List ExternalEvent
  internalTransition : Nat → InternalEvent → Option InternalEvent
  externalTransition : Nat → List ExternalEvent → Int → Option InternalEvent
  request : Nat → ExternalEvent → Int → List ExternalEvent
  observation : Nat → ObservationEvent → Option ObservationEvent
  viewProcess : String → ObservationEvent → Option ObservationEvent
  eventViewPorts : Nat → List (String × String)

/-- Observable trace of one `Coordinator::run` call: every call into a
model or view and every event-table insertion or event destruction, in
program order. -/
inductive Act where
  | confluentCall (sim : Nat)
  | outputCall (sim : Nat) (t : Int)
  | putExternal (e : ExternalEvent)
  | putRequest (e : ExternalEvent)
  | destroyOriginal (e : ExternalEvent)
  | internalCall (sim : Nat)
  | putInternal (e : InternalEvent)
  | externalCall (sim : Nat) (t : Int)
  | requestCall (sim : Nat) (t : Int)
  | eventViewObs (sim : Nat) (view : String) (port : String) (t : Int)
  | obsCall (ev : ObservationEvent)
  | viewProcessCall (view : String) (ev : ObservationEvent)
  | putObservation (ev : ObservationEvent)
deriving DecidableEq, Repr

/-- The internal, external and request transitions of the current bag. -/
def Act.isTransitionCall : Act → Bool
  | .internalCall _ => true
  | .externalCall _ _ => true
  | .requestCall _ _ => true
  | _ => false

/-- The processing of a queued `ObservationEvent`
(`Coordinator::processObservationEvents`): the `observation` call on the
target simulator, the hand-over to the named view, and the re-insertion of
the view's reply. -/
def Act.isObsProcessing : Act → Bool
  | .obsCall _ => true
  | .viewProcessCall _ _ => true
  | .putObservation _ => true
  | _ => false

/-- Event-table insertions and event destructions performed by
`Coordinator::dispatchExternalEvent`. -/
def Act.isRoutingAction : Act → Bool
  | .putExternal _ => true
  | .putRequest _ => true
  | .destroyOriginal _ => true
  | _ => false

/-- Event-view notifications emitted by `Coordinator::processEventView`. -/
def Act.isEventViewAction : Act → Bool
  | .eventViewObs _ _ _ _ => true
  | _ => false

/-- `EventTable::putInternalEvent` (modelled from the spec: queue the
event). -/
def Coordinator.putInternalEvent (st : Coordinator) (e : InternalEvent) : Coordinator :=
  { st with m_eventTable :=
      { st.m_eventTable with internals := st.m_eventTable.internals ++ [e] } }

/-- `EventTable::putExternalEvent` (modelled from the spec). -/
def Coordinator.putExternalEvent (st : Coordinator) (e : ExternalEvent) : Coordinator :=
  { st with m_eventTable :=
      { st.m_eventTable with externals := st.m_eventTable.externals ++ [e] } }

/-- `EventTable::putRequestEvent` (modelled from the spec). -/
def Coordinator.putRequestEvent (st : Coordinator) (e : ExternalEvent) : Coordinator :=
  { st with m_eventTable :=
      { st.m_eventTable with requests := st.m_eventTable.requests ++ [e] } }

/-- `EventTable::putObservationEvent` (modelled from the spec). -/
def Coordinator.putObservationEvent (st : Coordinator) (e : ObservationEvent) : Coordinator :=
  { st with m_eventTable :=
      { st.m_eventTable with observations := st.m_eventTable.observations ++ [e] } }

/-- The fresh event built by `dispatchExternalEvent` for one structural
destination: `new ExternalEvent(src, dst, port)` resp.
`new RequestEvent(src, dst, port)`, i.e. a copy of the source event (same
timestamp, source simulator, source port, request flag) bound to the
destination simulator and destination port. -/
def mkDispatched (sim : Nat) (ev : ExternalEvent) (dst : Nat) (dport : String) : ExternalEvent :=
  { time := ev.time, source := sim, port := ev.port
    target := dst, targetPort := dport, isRequest := ev.isRequest }

/-- The trace action of one insertion made by `dispatchExternalEvent`. -/
def putAction (sim : Nat) (ev : ExternalEvent) (dp : Nat × String) : Act :=
  if ev.isRequest then Act.putRequest (mkDispatched sim ev dp.1 dp.2)
  else Act.putExternal (mkDispatched sim ev dp.1 dp.2)

/-- Inner loop of `Coordinator::dispatchExternalEvent`: for every structural
destination of the event, insert a fresh `RequestEvent` or `ExternalEvent`
bound to that destination. -/
def Coordinator.dispatchTargets (st : Coordinator) (sim : Nat) (ev : ExternalEvent) :
    List (Nat × String) → Coordinator × List Act
  | [] => (st, [])
  | dp :: rest =>
    let st1 :=
      if ev.isRequest then st.putRequestEvent (mkDispatched sim ev dp.1 dp.2)
      else st.putExternalEvent (mkDispatched sim ev dp.1 dp.2)
    let r := Coordinator.dispatchTargets st1 sim ev rest
    (r.1, putAction sim ev dp :: r.2)

/-- `Coordinator::dispatchExternalEvent(eventList, sim)`: for every event of
the list, bind it to its emitter (`setModel(sim)`), look up the structural
destinations of its source port, insert one fresh event per destination,
then destroy the original event object. -/
def Coordinator.dispatchExternalEvent (conns : Conns) (st : Coordinator) :
    List ExternalEvent → Nat → Coordinator × List Act
  | [], _ => (st, [])
  | ev :: rest, sim =>
    let ev' := { ev with source := sim }
    let r1 := Coordinator.dispatchTargets st sim ev' (conns sim ev'.port)
    let r2 := Coordinator.dispatchExternalEvent conns r1.1 rest sim
    (r2.1, r1.2 ++ [Act.destroyOriginal ev'] ++ r2.2)

/-- `Coordinator::processEventView(model, event)`: notify every event view
observing the simulator; the observation timestamp is the internal event's
time when the trigger was an internal event, else the current time.  The
`observation` / `View::processObservationEvent` calls inside leave the
coordinator state unchanged (the returned value is handed to the view and
both events are deleted), so the notification is pure trace. -/
def Coordinator.processEventView (dyn : Dynamics) (sim : Nat)
    (event : Option InternalEvent) (t : Int) : List Act :=
  (dyn.eventViewPorts sim).map (fun vp =>
    Act.eventViewObs sim vp.1 vp.2
      (match event with
       | some e => e.time
       | none => t))

/-- `Coordinator::processInternalEvent(sim, bag)` after the bag pull
(`bag.internal(); bag.delInternal()` — performed at the call site in the
drain loop so the loop's bag update is explicit): call `output` at the
current time and route the result, then `internalTransition`; queue the
returned next internal event when there is one; finally notify the event
views. -/
def Coordinator.processInternalEvent (dyn : Dynamics) (conns : Conns)
    (st : Coordinator) (sim : Nat) (ev : InternalEvent) : Coordinator × List Act :=
  let result := dyn.output sim st.m_currentTime
  let r1 := Coordinator.dispatchExternalEvent conns st result sim
  match dyn.internalTransition sim ev with
  | some internal =>
    (r1.1.putInternalEvent internal,
     Act.outputCall sim st.m_currentTime :: r1.2 ++
       Act.internalCall sim :: Act.putInternal internal ::
         Coordinator.processEventView dyn sim (some ev) st.m_currentTime)
  | none =>
    (r1.1,
     Act.outputCall sim st.m_currentTime :: r1.2 ++
       Act.internalCall sim ::
         Coordinator.processEventView dyn sim (some ev) st.m_currentTime)

/-- `Coordinator::processExternalEvents(sim, bag)` on the bag's external
list (cleared at the call site, mirroring `deleteAndClear`/`delExternals`):
call `externalTransition`, queue the returned next internal event when
there is one, then notify the event views. -/
def Coordinator.processExternalEvents (dyn : Dynamics)
    (st : Coordinator) (sim : Nat) (lst : List ExternalEvent) : Coordinator × List Act :=
  match dyn.externalTransition sim lst st.m_currentTime with
  | some internal =>
    (st.putInternalEvent internal,
     Act.externalCall sim st.m_currentTime :: Act.putInternal internal ::
       Coordinator.processEventView dyn sim none st.m_currentTime)
  | none =>
    (st,
     Act.externalCall sim st.m_currentTime ::
       Coordinator.processEventView dyn sim none st.m_currentTime)

/-- Loop body of `Coordinator::processRequestEvents`: call `request` on each
request event and route the replies. -/
def Coordinator.processRequestList (dyn : Dynamics) (conns : Conns)
    (st : Coordinator) (sim : Nat) : List ExternalEvent → Coordinator × List Act
  | [] => (st, [])
  | req :: rest =>
    let result := dyn.request sim req st.m_currentTime
    let r1 := Coordinator.dispatchExternalEvent conns st result sim
    let r2 := Coordinator.processRequestList dyn conns r1.1 sim rest
    (r2.1, Act.requestCall sim st.m_currentTime :: r1.2 ++ r2.2)

/-- `Coordinator::processRequestEvents(sim, bag)` on the bag's request list
(cleared at the call site, mirroring `deleteAndClear`/`delRequest`). -/
def Coordinator.processRequestEvents (dyn : Dynamics) (conns : Conns)
    (st : Coordinator) (sim : Nat) (lst : List ExternalEvent) : Coordinator × List Act :=
  Coordinator.processRequestList dyn conns st sim lst

/-- One iteration of the inner `while (not bag.second.empty())` loop of
`Coordinator::run`: internal and external both pending → ask
`confluentTransitions` which path to run; internal only → internal path;
external only → external path; otherwise → request path.  Each branch
removes from the bag exactly the events its path consumed
(`delInternal` / `delExternals` / `delRequest`). -/
def Coordinator.drainStep (dyn : Dynamics) (conns : Conns)
    (st : Coordinator) (sim : Nat) (bag : EventBagModel) :
    Coordinator × EventBagModel × List Act :=
  match bag.internal with
  | some ev =>
    if bag.externals.isEmpty then
      let r := Coordinator.processInternalEvent dyn conns st sim ev
      (r.1, { bag with internal := none }, r.2)
    else
      match dyn.confluent sim ev bag.externals with
      | ConfluentKind.INTERNAL =>
        let r := Coordinator.processInternalEvent dyn conns st sim ev
        (r.1, { bag with internal := none }, Act.confluentCall sim :: r.2)
      | ConfluentKind.EXTERNAL =>
        let r := Coordinator.processExternalEvents dyn st sim bag.externals
        (r.1, { bag with externals := [] }, Act.confluentCall sim :: r.2)
  | none =>
    if bag.externals.isEmpty then
      let r := Coordinator.processRequestEvents dyn conns st sim bag.requests
      (r.1, { bag with requests := [] }, r.2)
    else
      let r := Coordinator.processExternalEvents dyn st sim bag.externals
      (r.1, { bag with externals := [] }, r.2)

/-- How many of the three event kinds are still pending in the bag; each
`drainStep` on a non-empty bag clears exactly one kind and never refills
one, so this is a strictly decreasing loop measure bounded by 3. -/
def bagWeight (b : EventBagModel) : Nat :=
  (if b.internal.isSome then 1 else 0) +
  (if b.externals.isEmpty then 0 else 1) +
  (if b.requests.isEmpty then 0 else 1)

/-- The inner `while (not bag.second.empty())` loop of `Coordinator::run`,
with an explicit fuel.  `drainLoop_fuel` below shows any fuel of at least
`bagWeight bag` computes the loop's fixed point, so `Coordinator.drainBag`
(fuel `bagWeight bag`) is the loop itself. -/
def Coordinator.drainLoop (dyn : Dynamics) (conns : Conns) :
    Nat → Coordinator → Nat → EventBagModel → Coordinator × List Act
  | 0, st, _, _ => (st, [])
  | Nat.succ n, st, sim, bag =>
    if bag.isEmpty then (st, [])
    else
      let r := Coordinator.drainStep dyn conns st sim bag
      let r2 := Coordinator.drainLoop dyn conns n r.1 sim r.2.1
      (r2.1, r.2.2 ++ r2.2)

/-- Drain one simulator's bag until empty (the inner while loop). -/
def Coordinator.drainBag (dyn : Dynamics) (conns : Conns)
    (st : Coordinator) (sim : Nat) (bag : EventBagModel) : Coordinator × List Act :=
  Coordinator.drainLoop dyn conns (bagWeight bag) st sim bag

/-- The outer `while (not bags.emptyBag())` loop of `Coordinator::run`:
drain every per-simulator bag of the popped `CompleteEventBagModel`. -/
def Coordinator.processBags (dyn : Dynamics) (conns : Conns) :
    Coordinator → List (Nat × EventBagModel) → Coordinator × List Act
  | st, [] => (st, [])
  | st, (sim, bag) :: rest =>
    let r := Coordinator.drainBag dyn conns st sim bag
    let r2 := Coordinator.processBags dyn conns r.1 rest
    (r2.1, r.2 ++ r2.2)

/-- `Coordinator::processObservationEvents(bags)`: for each queued
observation event, call `observation` on its target simulator; when it
returns an event, hand it to the named view
(`View::processObservationEvent`), and when the view replies with a
follow-up observation event, push it back into the event table. -/
def Coordinator.processObservationEvents (dyn : Dynamics) :
    Coordinator → List ObservationEvent → Coordinator × List Act
  | st, [] => (st, [])
  | st, ev :: rest =>
    match dyn.observation ev.model ev with
    | none =>
      let r := Coordinator.processObservationEvents dyn st rest
      (r.1, Act.obsCall ev :: r.2)
    | some event =>
      match dyn.viewProcess event.viewName event with
      | none =>
        let r := Coordinator.processObservationEvents dyn st rest
        (r.1, Act.obsCall ev :: Act.viewProcessCall event.viewName event :: r.2)
      | some event2 =>
        let r := Coordinator.processObservationEvents dyn
                   (st.putObservationEvent event2) rest
        (r.1, Act.obsCall ev :: Act.viewProcessCall event.viewName event ::
                Act.putObservation event2 :: r.2)

/-- Opening of `Coordinator::run()`: `m_eventTable.popEvent()` followed by
`updateCurrentTime(m_eventTable.getCurrentTime())` when the popped complete
bag is non-empty (`updateCurrentTime`, declared in the header, stores its
argument in `m_currentTime`).  Returns the updated state and the popped
bag. -/
def Coordinator.runPop (st : Coordinator) : Coordinator :=
  let popped := st.m_eventTable.popEvent
  if popped.1.isEmpty then { st with m_eventTable := popped.2 }
  else { st with m_eventTable := popped.2
                 m_currentTime :=
                   (st.m_eventTable.topTime).getD st.m_currentTime }

/-- Deletion drain of `Coordinator::run()` (the `if (oldToDelete > 0)`
block): free the first `oldToDelete` simulators of `m_deletedSimulator`
(the `boost::checked_deleter` loop, ghost-recorded in `destroyed`), erase
them from the list, and reassign `m_toDelete` to the remaining length. -/
def Coordinator.runDeletePhase (oldToDelete : Nat) (st : Coordinator) : Coordinator :=
  if 0 < oldToDelete then
    { st with
        destroyed := st.destroyed ++ st.m_deletedSimulator.take oldToDelete
        m_deletedSimulator := st.m_deletedSimulator.drop oldToDelete
        m_toDelete := (st.m_deletedSimulator.drop oldToDelete).length }
  else st

/-- `Coordinator::run()`: record `oldToDelete = m_toDelete`; pop the
complete bag at the minimal pending time and, when it is non-empty, update
the current time to it; drain every per-simulator bag; run the deletion
drain for the first `oldToDelete` pending simulators; finally process the
popped observation events. -/
def Coordinator.run (dyn : Dynamics) (conns : Conns) (st : Coordinator) :
    Coordinator × List Act :=
  let oldToDelete := st.m_toDelete
  let bags := st.m_eventTable.popEvent.1
  let pb := Coordinator.processBags dyn conns (Coordinator.runPop st) bags.bags
  let st3 := Coordinator.runDeletePhase oldToDelete pb.1
  let ob := Coordinator.processObservationEvents dyn st3 bags.states
  (ob.1, pb.2 ++ ob.2)

/-- `Coordinator::init(mdls)`: after building the initial simulators
(delegated to the `ModelFactory`, an external collaborator), reset
`m_toDelete` to 0. -/
def Coordinator.init (st : Coordinator) : Coordinator :=
  { st with m_toDelete := 0 }

/-- `Coordinator::delAtomicModel(parent, atom)`: look the simulator up in
`m_modelList` and erase that entry; detach it from every view
(`View::removeObservable`); delete all its events from the table
(`EventTable::delModelEvents`); run `Simulator::clear()` (ghost-recorded in
`cleared`); append it to `m_deletedSimulator`.  `m_toDelete` is not
touched.  The final `parent->delModel(atom)` mutates the structural graph,
which lives outside this state.  When the simulator is absent the source
`AssertI` throws; the state is returned unchanged. -/
def Coordinator.delAtomicModel (st : Coordinator) (atom : Nat) : Coordinator :=
  match st.m_modelList.lookup atom with
  | none => st
  | some satom =>
    { st with
        m_modelList := st.m_modelList.filter (fun p => p.1 ≠ atom)
        m_viewList := st.m_viewList.map (fun v => (v.1, v.2.filter (fun s => s ≠ satom)))
        m_eventTable := st.m_eventTable.delModelEvents satom
        cleared := satom :: st.cleared
        m_deletedSimulator := st.m_deletedSimulator ++ [satom] }

/-! ## Basic lemmas about the helpers -/

theorem listMin_mem : ∀ {l : List Int} {t : Int}, listMin l = some t → t ∈ l := by
  intro l
  induction l with
  | nil => intro t h; simp [listMin] at h
  | cons x xs ih =>
    intro t h
    simp only [listMin] at h
    cases hx : listMin xs with
    | none =>
      rw [hx] at h
      simp at h
      simp [h]
    | some m =>
      rw [hx] at h
      simp at h
      rcases min_cases x m with ⟨hmin, _⟩ | ⟨hmin, _⟩
      · rw [hmin] at h
        simp [h]
      · rw [hmin] at h
        subst h
        exact List.mem_cons_of_mem _ (ih hx)

theorem listMin_le : ∀ {l : List Int} {t : Int}, listMin l = some t →
    ∀ x ∈ l, t ≤ x := by
  intro l
  induction l with
  | nil => intro t h; simp [listMin] at h
  | cons y ys ih =>
    intro t h x hx
    simp only [listMin] at h
    cases hy : listMin ys with
    | none =>
      rw [hy] at h
      simp at h
      subst h
      cases ys with
      | nil => simp at hx; omega
      | cons z zs => simp [listMin] at hy
    | some m =>
      rw [hy] at h
      simp at h
      subst h
      rcases List.mem_cons.mp hx with rfl | hmem
      · exact min_le_left _ _
      · exact le_trans (min_le_right _ _) (ih hy x hmem)

theorem bagWeight_eq_zero {b : EventBagModel} :
    bagWeight b = 0 ↔ b.isEmpty = true := by
  cases b with
  | mk i e r =>
    cases i <;> cases e <;> cases r <;>
      simp [bagWeight, EventBagModel.isEmpty]

/-- Each iteration of the inner drain loop strictly shrinks the bag: the
processed branch removes all events of one kind and no branch adds events
to the bag. -/
theorem Coordinator.drainStep_weight (dyn : Dynamics) (conns : Conns)
    (st : Coordinator) (sim : Nat) (bag : EventBagModel)
    (h : bag.isEmpty = false) :
    bagWeight (Coordinator.drainStep dyn conns st sim bag).2.1 < bagWeight bag := by
  unfold Coordinator.drainStep
  cases hint : bag.internal with
  | some ev =>
    by_cases hext : bag.externals.isEmpty
    · simp [hint, hext, bagWeight]
    · cases hconf : dyn.confluent sim ev bag.externals <;>
        simp [hint, hext, hconf, bagWeight]
  | none =>
    by_cases hext : bag.externals.isEmpty
    · have hreq : bag.requests.isEmpty = false := by
        cases hreq : bag.requests.isEmpty
        · rfl
        · exfalso
          have : bag.isEmpty = true := by
            simp [EventBagModel.isEmpty, hint, hext, hreq]
          rw [this] at h
          cases h
      simp [hint, hext, bagWeight, hreq]
    · simp [hint, hext, bagWeight]

/-- Fuel-insensitivity of the drain loop: any fuel of at least
`bagWeight bag` computes the while loop's result, so the fuel in
`Coordinator.drainBag` is not a semantic truncation. -/
theorem Coordinator.drainLoop_fuel (dyn : Dynamics) (conns : Conns) :
    ∀ (n m : Nat) (st : Coordinator) (sim : Nat) (bag : EventBagModel),
      bagWeight bag ≤ n → bagWeight bag ≤ m →
      Coordinator.drainLoop dyn conns n st sim bag =
        Coordinator.drainLoop dyn conns m st sim bag := by
  intro n
  induction n with
  | zero =>
    intro m st sim bag hn _
    have hz : bagWeight bag = 0 := Nat.le_zero.mp hn
    have hempty : bag.isEmpty = true := bagWeight_eq_zero.mp hz
    cases m with
    | zero => rfl
    | succ m => simp [Coordinator.drainLoop, hempty]
  | succ n ih =>
    intro m st sim bag hn hm
    cases hempty : bag.isEmpty with
    | true =>
      cases m with
      | zero => simp [Coordinator.drainLoop, hempty]
      | succ m => simp [Coordinator.drainLoop, hempty]
    | false =>
      have hpos : 0 < bagWeight bag := by
        rcases Nat.eq_zero_or_pos (bagWeight bag) with h0 | h
        · rw [bagWeight_eq_zero.mp h0] at hempty
          exact absurd hempty (by simp)
        · exact h
      cases m with
      | zero => omega
      | succ m =>
        simp only [Coordinator.drainLoop, hempty, Bool.false_eq_true, if_false]
        have hlt := Coordinator.drainStep_weight dyn conns st sim bag hempty
        rw [ih m _ sim _ (by omega) (by omega)]

/-! ## Which parts of the state each phase may touch

During bag processing and observation processing the only coordinator
member that changes is the event table: every model callback result flows
into `putInternalEvent` / `putExternalEvent` / `putRequestEvent` /
`putObservationEvent`. -/

def tableOnly (st st' : Coordinator) : Prop :=
  st'.m_currentTime = st.m_currentTime ∧
  st'.m_modelList = st.m_modelList ∧
  st'.m_viewList = st.m_viewList ∧
  st'.m_deletedSimulator = st.m_deletedSimulator ∧
  st'.m_toDelete = st.m_toDelete ∧
  st'.destroyed = st.destroyed ∧
  st'.cleared = st.cleared

theorem tableOnly_refl (st : Coordinator) : tableOnly st st := by
  simp [tableOnly]

theorem tableOnly_trans {a b c : Coordinator}
    (h1 : tableOnly a b) (h2 : tableOnly b c) : tableOnly a c := by
  obtain ⟨x1, x2, x3, x4, x5, x6, x7⟩ := h1
  obtain ⟨y1, y2, y3, y4, y5, y6, y7⟩ := h2
  exact ⟨y1.trans x1, y2.trans x2, y3.trans x3, y4.trans x4,
         y5.trans x5, y6.trans x6, y7.trans x7⟩

theorem tableOnly_putInternal (st : Coordinator) (e : InternalEvent) :
    tableOnly st (st.putInternalEvent e) := by
  simp [tableOnly, Coordinator.putInternalEvent]

theorem tableOnly_putExternal (st : Coordinator) (e : ExternalEvent) :
    tableOnly st (st.putExternalEvent e) := by
  simp [tableOnly, Coordinator.putExternalEvent]

theorem tableOnly_putRequest (st : Coordinator) (e : ExternalEvent) :
    tableOnly st (st.putRequestEvent e) := by
  simp [tableOnly, Coordinator.putRequestEvent]

theorem tableOnly_putObservation (st : Coordinator) (e : ObservationEvent) :
    tableOnly st (st.putObservationEvent e) := by
  simp [tableOnly, Coordinator.putObservationEvent]

theorem tableOnly_dispatchTargets (st : Coordinator) (sim : Nat)
    (ev : ExternalEvent) :
    ∀ l, tableOnly st (Coordinator.dispatchTargets st sim ev l).1 := by
  intro l
  induction l generalizing st with
  | nil => exact tableOnly_refl st
  | cons dp rest ih =>
    simp only [Coordinator.dispatchTargets]
    by_cases hr : ev.isRequest
    · simp only [hr, if_true]
      exact tableOnly_trans (tableOnly_putRequest st _) (ih _)
    · simp only [hr, if_false]
      exact tableOnly_trans (tableOnly_putExternal st _) (ih _)

theorem tableOnly_dispatch (conns : Conns) :
    ∀ (l : List ExternalEvent) (st : Coordinator) (sim : Nat),
      tableOnly st (Coordinator.dispatchExternalEvent conns st l sim).1 := by
  intro l
  induction l with
  | nil => intro st sim; exact tableOnly_refl st
  | cons ev rest ih =>
    intro st sim
    simp only [Coordinator.dispatchExternalEvent]
    exact tableOnly_trans (tableOnly_dispatchTargets st sim _ _) (ih _ sim)

theorem tableOnly_processInternal (dyn : Dynamics) (conns : Conns)
    (st : Coordinator) (sim : Nat) (ev : InternalEvent) :
    tableOnly st (Coordinator.processInternalEvent dyn conns st sim ev).1 := by
  unfold Coordinator.processInternalEvent
  cases h : dyn.internalTransition sim ev with
  | some internal =>
    simp only [h]
    exact tableOnly_trans (tableOnly_dispatch conns _ st sim)
      (tableOnly_putInternal _ _)
  | none =>
    simp only [h]
    exact tableOnly_dispatch conns _ st sim

theorem tableOnly_processExternal (dyn : Dynamics)
    (st : Coordinator) (sim : Nat) (lst : List ExternalEvent) :
    tableOnly st (Coordinator.processExternalEvents dyn st sim lst).1 := by
  unfold Coordinator.processExternalEvents
  cases h : dyn.externalTransition sim lst st.m_currentTime with
  | some internal => simp only [h]; exact tableOnly_putInternal _ _
  | none => simp only [h]; exact tableOnly_refl st

theorem tableOnly_processRequestList (dyn : Dynamics) (conns : Conns) :
    ∀ (lst : List ExternalEvent) (st : Coordinator) (sim : Nat),
      tableOnly st (Coordinator.processRequestList dyn conns st sim lst).1 := by
  intro lst
  induction lst with
  | nil => intro st sim; exact tableOnly_refl st
  | cons req rest ih =>
    intro st sim
    simp only [Coordinator.processRequestList]
    exact tableOnly_trans (tableOnly_dispatch conns _ st sim) (ih _ sim)

theorem tableOnly_drainStep (dyn : Dynamics) (conns : Conns)
    (st : Coordinator) (sim : Nat) (bag : EventBagModel) :
    tableOnly st (Coordinator.drainStep dyn conns st sim bag).1 := by
  unfold Coordinator.drainStep
  cases hint : bag.internal with
  | some ev =>
    by_cases hext : bag.externals.isEmpty
    · simp only [hext, if_true]
      exact tableOnly_processInternal dyn conns st sim ev
    · simp only [hext, if_false]
      cases hconf : dyn.confluent sim ev bag.externals
      · exact tableOnly_processInternal dyn conns st sim ev
      · exact tableOnly_processExternal dyn st sim bag.externals
  | none =>
    by_cases hext : bag.externals.isEmpty
    · simp only [hext, if_true]
      exact tableOnly_processRequestList dyn conns bag.requests st sim
    · simp only [hext, if_false]
      exact tableOnly_processExternal dyn st sim bag.externals

theorem tableOnly_drainLoop (dyn : Dynamics) (conns : Conns) :
    ∀ (n : Nat) (st : Coordinator) (sim : Nat) (bag : EventBagModel),
      tableOnly st (Coordinator.drainLoop dyn conns n st sim bag).1 := by
  intro n
  induction n with
  | zero => intro st sim bag; exact tableOnly_refl st
  | succ n ih =>
    intro st sim bag
    simp only [Coordinator.drainLoop]
    by_cases hempty : bag.isEmpty
    · simp only [hempty, if_true]
      exact tableOnly_refl st
    · simp only [hempty, if_false]
      exact tableOnly_trans (tableOnly_drainStep dyn conns st sim bag) (ih _ sim _)

theorem tableOnly_processBags (dyn : Dynamics) (conns : Conns) :
    ∀ (l : List (Nat × EventBagModel)) (st : Coordinator),
      tableOnly st (Coordinator.processBags dyn conns st l).1 := by
  intro l
  induction l with
  | nil => intro st; exact tableOnly_refl st
  | cons p rest ih =>
    intro st
    cases p with
    | mk sim bag =>
      simp only [Coordinator.processBags]
      exact tableOnly_trans (tableOnly_drainLoop dyn conns _ st sim bag) (ih _)

theorem tableOnly_processObservationEvents (dyn : Dynamics) :
    ∀ (l : List ObservationEvent) (st : Coordinator),
      tableOnly st (Coordinator.processObservationEvents dyn st l).1 := by
  intro l
  induction l with
  | nil => intro st; exact tableOnly_refl st
  | cons ev rest ih =>
    intro st
    simp only [Coordinator.processObservationEvents]
    cases h1 : dyn.observation ev.model ev with
    | none => simp only []; exact ih st
    | some event =>
      simp only []
      cases h2 : dyn.viewProcess event.viewName event with
      | none => simp only []; exact ih st
      | some event2 =>
        simp only []
        exact tableOnly_trans (tableOnly_putObservation st event2) (ih _)

/-! ## Closed forms for the routing function -/

theorem dispatchTargets_trace (st : Coordinator) (sim : Nat) (ev : ExternalEvent) :
    ∀ l, (Coordinator.dispatchTargets st sim ev l).2 = l.map (putAction sim ev) := by
  intro l
  induction l generalizing st with
  | nil => rfl
  | cons dp rest ih =>
    simp only [Coordinator.dispatchTargets, List.map_cons]
    rw [ih]

theorem dispatchTargets_internals (st : Coordinator) (sim : Nat) (ev : ExternalEvent) :
    ∀ l, (Coordinator.dispatchTargets st sim ev l).1.m_eventTable.internals =
      st.m_eventTable.internals := by
  intro l
  induction l generalizing st with
  | nil => rfl
  | cons dp rest ih =>
    simp only [Coordinator.dispatchTargets]
    rw [ih]
    by_cases hr : ev.isRequest <;>
      simp [hr, Coordinator.putRequestEvent, Coordinator.putExternalEvent]

theorem dispatchTargets_observations (st : Coordinator) (sim : Nat) (ev : ExternalEvent) :
    ∀ l, (Coordinator.dispatchTargets st sim ev l).1.m_eventTable.observations =
      st.m_eventTable.observations := by
  intro l
  induction l generalizing st with
  | nil => rfl
  | cons dp rest ih =>
    simp only [Coordinator.dispatchTargets]
    rw [ih]
    by_cases hr : ev.isRequest <;>
      simp [hr, Coordinator.putRequestEvent, Coordinator.putExternalEvent]

theorem dispatchTargets_externals (st : Coordinator) (sim : Nat) (ev : ExternalEvent) :
    ∀ l, (Coordinator.dispatchTargets st sim ev l).1.m_eventTable.externals =
      st.m_eventTable.externals ++
        (if ev.isRequest then []
         else l.map (fun dp => mkDispatched sim ev dp.1 dp.2)) := by
  intro l
  induction l generalizing st with
  | nil => simp [Coordinator.dispatchTargets]
  | cons dp rest ih =>
    simp only [Coordinator.dispatchTargets]
    by_cases hr : ev.isRequest
    · simp only [hr, if_true]
      rw [ih]
      simp [hr, Coordinator.putRequestEvent]
    · simp only [hr, if_false]
      rw [ih]
      simp [hr, Coordinator.putExternalEvent]

theorem dispatchTargets_requests (st : Coordinator) (sim : Nat) (ev : ExternalEvent) :
    ∀ l, (Coordinator.dispatchTargets st sim ev l).1.m_eventTable.requests =
      st.m_eventTable.requests ++
        (if ev.isRequest then l.map (fun dp => mkDispatched sim ev dp.1 dp.2)
         else []) := by
  intro l
  induction l generalizing st with
  | nil => simp [Coordinator.dispatchTargets]
  | cons dp rest ih =>
    simp only [Coordinator.dispatchTargets]
    by_cases hr : ev.isRequest
    · simp only [hr, if_true]
      rw [ih]
      simp [hr, Coordinator.putRequestEvent]
    · simp only [hr, if_false]
      rw [ih]
      simp [hr, Coordinator.putExternalEvent]

/-- The fresh events built for one source event do not depend on the
`setModel` update of the source field. -/
theorem mkDispatched_setModel (sim : Nat) (ev : ExternalEvent) (d : Nat) (p : String) :
    mkDispatched sim { ev with source := sim } d p = mkDispatched sim ev d p := rfl

theorem putAction_setModel (sim : Nat) (ev : ExternalEvent) (dp : Nat × String) :
    putAction sim { ev with source := sim } dp = putAction sim ev dp := rfl

theorem dispatchExternalEvent_trace (conns : Conns) :
    ∀ (l : List ExternalEvent) (st : Coordinator) (sim : Nat),
      (Coordinator.dispatchExternalEvent conns st l sim).2 =
        l.flatMap (fun ev =>
          (conns sim ev.port).map (putAction sim ev) ++
            [Act.destroyOriginal { ev with source := sim }]) := by
  intro l
  induction l with
  | nil => intro st sim; rfl
  | cons ev rest ih =>
    intro st sim
    simp only [Coordinator.dispatchExternalEvent, List.flatMap_cons]
    rw [dispatchTargets_trace, ih]
    simp [putAction_setModel]

theorem dispatchExternalEvent_externals (conns : Conns) :
    ∀ (l : List ExternalEvent) (st : Coordinator) (sim : Nat),
      (Coordinator.dispatchExternalEvent conns st l sim).1.m_eventTable.externals =
        st.m_eventTable.externals ++
          l.flatMap (fun ev =>
            if ev.isRequest then []
            else (conns sim ev.port).map (fun dp => mkDispatched sim ev dp.1 dp.2)) := by
  intro l
  induction l with
  | nil => intro st sim; simp [Coordinator.dispatchExternalEvent]
  | cons ev rest ih =>
    intro st sim
    simp only [Coordinator.dispatchExternalEvent, List.flatMap_cons]
    rw [ih, dispatchTargets_externals]
    by_cases hr : ev.isRequest <;> simp [hr, mkDispatched_setModel, mkDispatched]

theorem dispatchExternalEvent_requests (conns : Conns) :
    ∀ (l : List ExternalEvent) (st : Coordinator) (sim : Nat),
      (Coordinator.dispatchExternalEvent conns st l sim).1.m_eventTable.requests =
        st.m_eventTable.requests ++
          l.flatMap (fun ev =>
            if ev.isRequest then
              (conns sim ev.port).map (fun dp => mkDispatched sim ev dp.1 dp.2)
            else []) := by
  intro l
  induction l with
  | nil => intro st sim; simp [Coordinator.dispatchExternalEvent]
  | cons ev rest ih =>
    intro st sim
    simp only [Coordinator.dispatchExternalEvent, List.flatMap_cons]
    rw [ih, dispatchTargets_requests]
    by_cases hr : ev.isRequest <;> simp [hr, mkDispatched_setModel, mkDispatched]

theorem dispatchExternalEvent_internals (conns : Conns) :
    ∀ (l : List ExternalEvent) (st : Coordinator) (sim : Nat),
      (Coordinator.dispatchExternalEvent conns st l sim).1.m_eventTable.internals =
        st.m_eventTable.internals := by
  intro l
  induction l with
  | nil => intro st sim; rfl
  | cons ev rest ih =>
    intro st sim
    simp only [Coordinator.dispatchExternalEvent]
    rw [ih, dispatchTargets_internals]

theorem dispatchExternalEvent_observations (conns : Conns) :
    ∀ (l : List ExternalEvent) (st : Coordinator) (sim : Nat),
      (Coordinator.dispatchExternalEvent conns st l sim).1.m_eventTable.observations =
        st.m_eventTable.observations := by
  intro l
  induction l with
  | nil => intro st sim; rfl
  | cons ev rest ih =>
    intro st sim
    simp only [Coordinator.dispatchExternalEvent]
    rw [ih, dispatchTargets_observations]

/-! ## Classifying the trace of each phase -/

theorem putAction_isRouting (sim : Nat) (ev : ExternalEvent) (dp : Nat × String) :
    (putAction sim ev dp).isRoutingAction = true := by
  unfold putAction
  by_cases hr : ev.isRequest <;> simp [hr, Act.isRoutingAction]

theorem dispatch_trace_isRouting (conns : Conns) (l : List ExternalEvent)
    (st : Coordinator) (sim : Nat) :
    ∀ a ∈ (Coordinator.dispatchExternalEvent conns st l sim).2,
      a.isRoutingAction = true := by
  intro a ha
  rw [dispatchExternalEvent_trace] at ha
  simp only [List.mem_flatMap, List.mem_append, List.mem_map] at ha
  obtain ⟨ev, _, hcase⟩ := ha
  rcases hcase with ⟨dp, _, rfl⟩ | hd
  · exact putAction_isRouting sim ev dp
  · simp at hd
    subst hd
    rfl

theorem processEventView_isEventView (dyn : Dynamics) (sim : Nat)
    (event : Option InternalEvent) (t : Int) :
    ∀ a ∈ Coordinator.processEventView dyn sim event t,
      a.isEventViewAction = true := by
  intro a ha
  simp only [Coordinator.processEventView, List.mem_map] at ha
  obtain ⟨vp, _, rfl⟩ := ha
  rfl

theorem routing_not_obs (a : Act) (h : a.isRoutingAction = true) :
    a.isObsProcessing = false := by
  cases a <;> simp_all [Act.isRoutingAction, Act.isObsProcessing]

theorem eventView_not_obs (a : Act) (h : a.isEventViewAction = true) :
    a.isObsProcessing = false := by
  cases a <;> simp_all [Act.isEventViewAction, Act.isObsProcessing]


theorem processInternalEvent_trace_not_obs (dyn : Dynamics) (conns : Conns)
    (st : Coordinator) (sim : Nat) (ev : InternalEvent) :
    ∀ a ∈ (Coordinator.processInternalEvent dyn conns st sim ev).2,
      a.isObsProcessing = false := by
  intro a ha
  unfold Coordinator.processInternalEvent at ha
  cases h : dyn.internalTransition sim ev with
  | some internal =>
    simp only [h, List.cons_append, List.mem_cons, List.mem_append] at ha
    rcases ha with rfl | ha
    · rfl
    rcases ha with ha | ha
    · exact routing_not_obs a (dispatch_trace_isRouting conns _ st sim a ha)
    rcases ha with rfl | ha
    · rfl
    rcases ha with rfl | ha
    · rfl
    exact eventView_not_obs a (processEventView_isEventView dyn sim _ _ a ha)
  | none =>
    simp only [h, List.cons_append, List.mem_cons, List.mem_append] at ha
    rcases ha with rfl | ha
    · rfl
    rcases ha with ha | ha
    · exact routing_not_obs a (dispatch_trace_isRouting conns _ st sim a ha)
    rcases ha with rfl | ha
    · rfl
    exact eventView_not_obs a (processEventView_isEventView dyn sim _ _ a ha)

theorem processExternalEvents_trace_not_obs (dyn : Dynamics)
    (st : Coordinator) (sim : Nat) (lst : List ExternalEvent) :
    ∀ a ∈ (Coordinator.processExternalEvents dyn st sim lst).2,
      a.isObsProcessing = false := by
  intro a ha
  unfold Coordinator.processExternalEvents at ha
  cases h : dyn.externalTransition sim lst st.m_currentTime with
  | some internal =>
    simp only [h, List.mem_cons] at ha
    rcases ha with rfl | ha
    · rfl
    rcases ha with rfl | ha
    · rfl
    exact eventView_not_obs a (processEventView_isEventView dyn sim _ _ a ha)
  | none =>
    simp only [h, List.mem_cons] at ha
    rcases ha with rfl | ha
    · rfl
    exact eventView_not_obs a (processEventView_isEventView dyn sim _ _ a ha)

theorem processRequestList_trace_not_obs (dyn : Dynamics) (conns : Conns) :
    ∀ (lst : List ExternalEvent) (st : Coordinator) (sim : Nat),
      ∀ a ∈ (Coordinator.processRequestList dyn conns st sim lst).2,
        a.isObsProcessing = false := by
  intro lst
  induction lst with
  | nil => intro st sim a ha; simp [Coordinator.processRequestList] at ha
  | cons req rest ih =>
    intro st sim a ha
    simp only [Coordinator.processRequestList, List.cons_append, List.mem_cons,
               List.mem_append] at ha
    rcases ha with rfl | ha
    · rfl
    rcases ha with ha | ha
    · exact routing_not_obs a (dispatch_trace_isRouting conns _ st sim a ha)
    exact ih _ sim a ha

theorem drainStep_trace_not_obs (dyn : Dynamics) (conns : Conns)
    (st : Coordinator) (sim : Nat) (bag : EventBagModel) :
    ∀ a ∈ (Coordinator.drainStep dyn conns st sim bag).2.2,
      a.isObsProcessing = false := by
  intro a ha
  unfold Coordinator.drainStep at ha
  cases hint : bag.internal with
  | some ev =>
    simp only [hint] at ha
    cases hext : bag.externals.isEmpty with
    | true =>
      simp only [hext, if_true] at ha
      exact processInternalEvent_trace_not_obs dyn conns st sim ev a ha
    | false =>
      simp only [hext, Bool.false_eq_true, if_false] at ha
      cases hconf : dyn.confluent sim ev bag.externals with
      | INTERNAL =>
        simp only [hconf, List.mem_cons] at ha
        rcases ha with rfl | ha
        · rfl
        exact processInternalEvent_trace_not_obs dyn conns st sim ev a ha
      | EXTERNAL =>
        simp only [hconf, List.mem_cons] at ha
        rcases ha with rfl | ha
        · rfl
        exact processExternalEvents_trace_not_obs dyn st sim bag.externals a ha
  | none =>
    simp only [hint] at ha
    cases hext : bag.externals.isEmpty with
    | true =>
      simp only [hext, if_true] at ha
      exact processRequestList_trace_not_obs dyn conns bag.requests st sim a ha
    | false =>
      simp only [hext, Bool.false_eq_true, if_false] at ha
      exact processExternalEvents_trace_not_obs dyn st sim bag.externals a ha

theorem drainLoop_trace_not_obs (dyn : Dynamics) (conns : Conns) :
    ∀ (n : Nat) (st : Coordinator) (sim : Nat) (bag : EventBagModel),
      ∀ a ∈ (Coordinator.drainLoop dyn conns n st sim bag).2,
        a.isObsProcessing = false := by
  intro n
  induction n with
  | zero => intro st sim bag a ha; simp [Coordinator.drainLoop] at ha
  | succ n ih =>
    intro st sim bag a ha
    simp only [Coordinator.drainLoop] at ha
    cases hempty : bag.isEmpty with
    | true => simp [hempty] at ha
    | false =>
      simp only [hempty, Bool.false_eq_true, if_false, List.mem_append] at ha
      rcases ha with hs | hl
      · exact drainStep_trace_not_obs dyn conns st sim bag a hs
      · exact ih _ sim _ a hl

theorem processBags_trace_not_obs (dyn : Dynamics) (conns : Conns) :
    ∀ (l : List (Nat × EventBagModel)) (st : Coordinator),
      ∀ a ∈ (Coordinator.processBags dyn conns st l).2,
        a.isObsProcessing = false := by
  intro l
  induction l with
  | nil => intro st a ha; simp [Coordinator.processBags] at ha
  | cons p rest ih =>
    intro st a ha
    cases p with
    | mk sim bag =>
      simp only [Coordinator.processBags, List.mem_append] at ha
      rcases ha with hd | hr
      · exact drainLoop_trace_not_obs dyn conns _ st sim bag a hd
      · exact ih _ a hr

theorem processObservationEvents_trace_not_trans (dyn : Dynamics) :
    ∀ (l : List ObservationEvent) (st : Coordinator),
      ∀ a ∈ (Coordinator.processObservationEvents dyn st l).2,
        a.isTransitionCall = false := by
  intro l
  induction l with
  | nil => intro st a ha; simp [Coordinator.processObservationEvents] at ha
  | cons ev rest ih =>
    intro st a ha
    simp only [Coordinator.processObservationEvents] at ha
    cases h1 : dyn.observation ev.model ev with
    | none =>
      simp only [h1, List.mem_cons] at ha
      rcases ha with rfl | ha
      · rfl
      exact ih st a ha
    | some event =>
      simp only [h1] at ha
      cases h2 : dyn.viewProcess event.viewName event with
      | none =>
        simp only [h2, List.mem_cons] at ha
        rcases ha with rfl | ha
        · rfl
        rcases ha with rfl | ha
        · rfl
        exact ih st a ha
      | some event2 =>
        simp only [h2, List.mem_cons] at ha
        rcases ha with rfl | ha
        · rfl
        rcases ha with rfl | ha
        · rfl
        rcases ha with rfl | ha
        · rfl
        exact ih _ a ha

/-! ## Claims about PackageTable and Condition -/

/-- Claim C8: `PackageTable::remove(i)` throws an `ArgError` if and only if
`i` designates the current package; when it throws the table is left
unchanged; when `i` is not the current package, the entry `i` is erased
from the table (and the current selection is untouched). -/
theorem PackageTable.remove_spec (pt : PackageTable) (i : String) :
    ((pt.remove i).2 = true ↔ i = pt.m_current) ∧
    ((pt.remove i).2 = true → (pt.remove i).1 = pt) ∧
    ((pt.remove i).2 = false →
      (pt.remove i).1.m_table = pt.m_table.erase i ∧
      (pt.remove i).1.m_current = pt.m_current) := by
  unfold PackageTable.remove
  by_cases h : pt.m_current = i
  · simp [h]
  · simp [h]
    exact fun heq => absurd heq.symm h

/-- Witness for C8: on a table holding `""` and `"a"` with `"a"` current,
removing `""` does not throw, erases `""` and keeps the selection. -/
theorem PackageTable.remove_spec_witness :
    ((PackageTable.create.current "a").remove "").2 = false ∧
    (((PackageTable.create.current "a").remove "").1.m_table
        = (PackageTable.create.current "a").m_table.erase "" ∧
      ((PackageTable.create.current "a").remove "").1.m_current
        = (PackageTable.create.current "a").m_current) :=
  ⟨by decide,
   (PackageTable.remove_spec (PackageTable.create.current "a") "").2.2 (by decide)⟩

/-- Claim C9: `PackageTable::current(name)` leaves the current selection
unchanged when `name` is already present (the table is unchanged too); the
selection moves to `name` only when the call newly inserts it. -/
theorem PackageTable.current_spec (pt : PackageTable) (package : String) :
    (package ∈ pt.m_table →
      (pt.current package).m_current = pt.m_current ∧
      (pt.current package).m_table = pt.m_table) ∧
    (package ∉ pt.m_table →
      (pt.current package).m_current = package ∧
      (pt.current package).m_table = pt.m_table ++ [package]) := by
  unfold PackageTable.current PackageTable.insertSet
  by_cases h : package ∈ pt.m_table <;> simp [h]

/-- Witness for C9: selecting an already-present name keeps the previous
selection. -/
theorem PackageTable.current_spec_witness :
    "" ∈ (PackageTable.create.current "a").m_table ∧
    ((PackageTable.create.current "a").current "").m_current
      = (PackageTable.create.current "a").m_current :=
  ⟨by decide,
   ((PackageTable.current_spec (PackageTable.create.current "a") "").1 (by decide)).1⟩

/-- Claim C10: when the port already exists, `Condition::add(portname)`
preserves the whole port-to-value-set map (in particular any values added
earlier through `addValueToPort`) and only re-points the last-added-port
marker. -/
theorem Condition.add_existing_preserves (c : Condition) (portname : String)
    (h : (c.ports.lookup portname).isSome = true) :
    (c.add portname).ports = c.ports ∧
    (c.add portname).m_last_port = portname ∧
    (c.add portname).m_name = c.m_name := by
  unfold Condition.add
  cases hl : c.ports.lookup portname with
  | none => rw [hl] at h; simp at h
  | some s => simp [hl]

/-- A concrete condition whose port `p` got the value 5 through
`addValueToPort`. -/
def cond10 : Condition :=
  (({ m_name := "c", ports := [], m_last_port := "" } : Condition).add "p")
    |>.addValueToPort "p" 5

/-- Witness for C10: re-adding the existing port `p` of `cond10` keeps its
value set (which holds the previously added 5) and only updates the
marker. -/
theorem Condition.add_existing_preserves_witness :
    (cond10.ports.lookup "p").isSome = true ∧
    (cond10.add "p").ports = cond10.ports ∧
    (cond10.add "p").m_last_port = "p" :=
  ⟨by decide,
   (Condition.add_existing_preserves cond10 "p" (by decide)).1,
   (Condition.add_existing_preserves cond10 "p" (by decide)).2.1⟩

/-! ## Claims about routing and the internal path -/

/-- Claim C5: for every event list handed to
`Coordinator::dispatchExternalEvent` by a simulator's `output`, the call
creates exactly one fresh event per structural destination — a
`RequestEvent` when the source event is a request, an `ExternalEvent`
otherwise — bound to the destination simulator and port and carrying the
source event's timestamp, appends each to the corresponding event-table
queue, and destroys every original event object; internal and observation
queues are untouched.  (`mkDispatched` spells out the copied timestamp and
the destination binding; the trace records the `delete` of each original.) -/
theorem Coordinator.dispatchExternalEvent_spec (conns : Conns)
    (st : Coordinator) (l : List ExternalEvent) (sim : Nat) :
    ((Coordinator.dispatchExternalEvent conns st l sim).1.m_eventTable.externals =
      st.m_eventTable.externals ++
        l.flatMap (fun ev =>
          if ev.isRequest then []
          else (conns sim ev.port).map (fun dp => mkDispatched sim ev dp.1 dp.2))) ∧
    ((Coordinator.dispatchExternalEvent conns st l sim).1.m_eventTable.requests =
      st.m_eventTable.requests ++
        l.flatMap (fun ev =>
          if ev.isRequest then
            (conns sim ev.port).map (fun dp => mkDispatched sim ev dp.1 dp.2)
          else [])) ∧
    ((Coordinator.dispatchExternalEvent conns st l sim).1.m_eventTable.internals =
      st.m_eventTable.internals) ∧
    ((Coordinator.dispatchExternalEvent conns st l sim).1.m_eventTable.observations =
      st.m_eventTable.observations) ∧
    ((Coordinator.dispatchExternalEvent conns st l sim).2 =
      l.flatMap (fun ev =>
        (conns sim ev.port).map (putAction sim ev) ++
          [Act.destroyOriginal { ev with source := sim }])) ∧
    (∀ ev dst dport,
      (mkDispatched sim ev dst dport).time = ev.time ∧
      (mkDispatched sim ev dst dport).target = dst ∧
      (mkDispatched sim ev dst dport).targetPort = dport ∧
      (mkDispatched sim ev dst dport).isRequest = ev.isRequest) :=
  ⟨dispatchExternalEvent_externals conns l st sim,
   dispatchExternalEvent_requests conns l st sim,
   dispatchExternalEvent_internals conns l st sim,
   dispatchExternalEvent_observations conns l st sim,
   dispatchExternalEvent_trace conns l st sim,
   fun _ _ _ => ⟨rfl, rfl, rfl, rfl⟩⟩

/-- Claim C3: `Coordinator::processInternalEvent` first calls the model's
`output` at the current time and routes the returned external events
(nothing but routing actions happen between `output` and the internal
transition), only then calls `internalTransition`; a returned fresh
internal event is queued in the event table, and the simulator's event
views are notified last. -/
theorem Coordinator.processInternalEvent_spec (dyn : Dynamics) (conns : Conns)
    (st : Coordinator) (sim : Nat) (ev : InternalEvent) :
    ((Coordinator.processInternalEvent dyn conns st sim ev).2 =
      (Act.outputCall sim st.m_currentTime ::
        (Coordinator.dispatchExternalEvent conns st (dyn.output sim st.m_currentTime) sim).2) ++
        Act.internalCall sim ::
          ((match dyn.internalTransition sim ev with
            | some e => [Act.putInternal e]
            | none => []) ++
           Coordinator.processEventView dyn sim (some ev) st.m_currentTime)) ∧
    (∀ a ∈ (Coordinator.dispatchExternalEvent conns st (dyn.output sim st.m_currentTime) sim).2,
      a.isRoutingAction = true) ∧
    (∀ a ∈ Coordinator.processEventView dyn sim (some ev) st.m_currentTime,
      a.isEventViewAction = true) ∧
    (∀ e, dyn.internalTransition sim ev = some e →
      e ∈ (Coordinator.processInternalEvent dyn conns st sim ev).1.m_eventTable.internals) := by
  refine ⟨?_, dispatch_trace_isRouting conns _ st sim,
          processEventView_isEventView dyn sim (some ev) st.m_currentTime, ?_⟩
  · unfold Coordinator.processInternalEvent
    cases h : dyn.internalTransition sim ev <;> simp [h]
  · intro e he
    unfold Coordinator.processInternalEvent
    simp only [he]
    simp [Coordinator.putInternalEvent]

/-! ## Observation events run last -/

theorem processObservationEvents_obs_mono (dyn : Dynamics) :
    ∀ (l : List ObservationEvent) (st : Coordinator) (e : ObservationEvent),
      e ∈ st.m_eventTable.observations →
      e ∈ (Coordinator.processObservationEvents dyn st l).1.m_eventTable.observations := by
  intro l
  induction l with
  | nil => intro st e he; exact he
  | cons ev rest ih =>
    intro st e he
    simp only [Coordinator.processObservationEvents]
    cases h1 : dyn.observation ev.model ev with
    | none => simp only []; exact ih st e he
    | some event =>
      simp only []
      cases h2 : dyn.viewProcess event.viewName event with
      | none => simp only []; exact ih st e he
      | some event2 =>
        simp only []
        refine ih _ e ?_
        simp [Coordinator.putObservationEvent, he]

/-- Every follow-up observation event returned by a view during
`processObservationEvents` ends up queued in the event table. -/
theorem processObservationEvents_pushback (dyn : Dynamics) :
    ∀ (l : List ObservationEvent) (st : Coordinator) (ev : ObservationEvent),
      ev ∈ l →
      ∀ e1 e2, dyn.observation ev.model ev = some e1 →
        dyn.viewProcess e1.viewName e1 = some e2 →
        e2 ∈ (Coordinator.processObservationEvents dyn st l).1.m_eventTable.observations := by
  intro l
  induction l with
  | nil => intro st ev hev; simp at hev
  | cons hd rest ih =>
    intro st ev hev e1 e2 h1 h2
    rcases List.mem_cons.mp hev with rfl | hmem
    · simp only [Coordinator.processObservationEvents, h1, h2]
      refine processObservationEvents_obs_mono dyn rest _ e2 ?_
      simp [Coordinator.putObservationEvent]
    · simp only [Coordinator.processObservationEvents]
      cases g1 : dyn.observation hd.model hd with
      | none => simp only []; exact ih st ev hmem e1 e2 h1 h2
      | some event =>
        simp only []
        cases g2 : dyn.viewProcess event.viewName event with
        | none => simp only []; exact ih st ev hmem e1 e2 h1 h2
        | some event2 => simp only []; exact ih _ ev hmem e1 e2 h1 h2

/-- In a trace of the form `A ++ B` where `A` holds no observation
processing and `B` holds no transition call, every transition call comes
strictly before every observation processing. -/
theorem trace_split_lt {tr A B : List Act} (hAB : tr = A ++ B) {i j : Nat}
    (hA : ∀ a ∈ A, a.isObsProcessing = false)
    (hB : ∀ a ∈ B, a.isTransitionCall = false)
    (hi : i < tr.length) (hj : j < tr.length)
    (ht : (tr.get ⟨i, hi⟩).isTransitionCall = true)
    (ho : (tr.get ⟨j, hj⟩).isObsProcessing = true) :
    i < j := by
  subst hAB
  have hiA : i < A.length := by
    by_contra hc
    push_neg at hc
    have hmem : (A ++ B).get ⟨i, hi⟩ ∈ B := by
      rw [List.get_eq_getElem, List.getElem_append_right hc]
      exact List.getElem_mem _
    have hfalse := hB _ hmem
    rw [ht] at hfalse
    cases hfalse
  have hjA : A.length ≤ j := by
    by_contra hc
    push_neg at hc
    have hmem : (A ++ B).get ⟨j, hj⟩ ∈ A := by
      rw [List.get_eq_getElem, List.getElem_append_left hc]
      exact List.getElem_mem _
    have hfalse := hA _ hmem
    rw [ho] at hfalse
    cases hfalse
  omega

/-- The trace of one `run` call splits into the bag-processing prefix
(free of observation processing) and the observation suffix (free of
transition calls). -/
theorem run_trace_split (dyn : Dynamics) (conns : Conns) (st : Coordinator) :
    ∃ A B, (Coordinator.run dyn conns st).2 = A ++ B ∧
      (∀ a ∈ A, a.isObsProcessing = false) ∧
      (∀ a ∈ B, a.isTransitionCall = false) := by
  refine ⟨_, _, rfl, ?_, ?_⟩
  · exact processBags_trace_not_obs dyn conns _ _
  · exact processObservationEvents_trace_not_trans dyn _ _

/-- Claim C2: in every `Coordinator::run` call, every queued
observation event at the current time is processed strictly after every
internal, external and request transition of the current bag, and every
follow-up observation event returned by a view is pushed back into the
event table. -/
theorem Coordinator.run_observations_last (dyn : Dynamics) (conns : Conns)
    (st : Coordinator) :
    (∀ i j (hi : i < (Coordinator.run dyn conns st).2.length)
        (hj : j < (Coordinator.run dyn conns st).2.length),
        ((Coordinator.run dyn conns st).2.get ⟨i, hi⟩).isTransitionCall = true →
        ((Coordinator.run dyn conns st).2.get ⟨j, hj⟩).isObsProcessing = true →
        i < j) ∧
    (∀ ev ∈ (st.m_eventTable.popEvent).1.states, ∀ e1 e2,
        dyn.observation ev.model ev = some e1 →
        dyn.viewProcess e1.viewName e1 = some e2 →
        e2 ∈ (Coordinator.run dyn conns st).1.m_eventTable.observations) := by
  constructor
  · intro i j hi hj ht ho
    obtain ⟨A, B, hAB, hA, hB⟩ := run_trace_split dyn conns st
    exact trace_split_lt hAB hA hB hi hj ht ho
  · intro ev hev e1 e2 h1 h2
    exact processObservationEvents_pushback dyn _ _ ev hev e1 e2 h1 h2

/-! ## Concrete scenarios used by the witnesses -/

/-- A connection graph with no couplings. -/
def connsNone : Conns := fun _ _ => []

/-- Atomic models that do nothing: no output, passive transitions, no
observation replies, no event views. -/
def dynPassive : Dynamics :=
  { confluent := fun _ _ _ => ConfluentKind.EXTERNAL
    output := fun _ _ => []
    internalTransition := fun _ _ => none
    externalTransition := fun _ _ _ => none
    request := fun _ _ _ => []
    observation := fun _ _ => none
    viewProcess := fun _ _ => none
    eventViewPorts := fun _ => [] }

/-- Like `dynPassive` but the observed model answers every observation and
the view re-schedules itself one time unit later (a timed view's tick). -/
def dynObserve : Dynamics :=
  { dynPassive with
      observation := fun _ ev => some ev
      viewProcess := fun _ ev => some { ev with time := ev.time + 1 } }

/-- The observation event of the witness scenario for C2. -/
def obsW2 : ObservationEvent := { time := 0, model := 0, viewName := "v", port := "p" }

/-- A coordinator holding one internal event and one observation event,
both at time 0. -/
def stW2 : Coordinator :=
  { m_currentTime := 0
    m_eventTable :=
      { internals := [{ time := 0, model := 0 }]
        externals := []
        requests := []
        observations := [obsW2] }
    m_modelList := [(0, 0)]
    m_viewList := [("v", [0])]
    m_deletedSimulator := []
    m_toDelete := 0
    destroyed := []
    cleared := [] }

/-- Witness for C2 at the concrete scenario `stW2`: the internal transition
(position 1 of the trace) precedes the observation processing (position 2),
and the view's follow-up event at time 1 is queued in the table. -/
theorem Coordinator.run_observations_last_witness :
    1 < 2 ∧
    ({ obsW2 with time := 1 } : ObservationEvent)
      ∈ (Coordinator.run dynObserve connsNone stW2).1.m_eventTable.observations := by
  constructor
  · have h1 : 1 < (Coordinator.run dynObserve connsNone stW2).2.length := by decide
    have h2 : 2 < (Coordinator.run dynObserve connsNone stW2).2.length := by decide
    exact (Coordinator.run_observations_last dynObserve connsNone stW2).1 1 2 h1 h2
      (by rfl) (by rfl)
  · exact (Coordinator.run_observations_last dynObserve connsNone stW2).2 obsW2
      (by decide) obsW2 { obsW2 with time := 1 } (by decide) (by decide)

/-! ## Field accounting across the phases of `run` -/

theorem runPop_fields (st : Coordinator) :
    (Coordinator.runPop st).m_currentTime =
      (if (st.m_eventTable.popEvent).1.isEmpty then st.m_currentTime
       else (st.m_eventTable.topTime).getD st.m_currentTime) ∧
    (Coordinator.runPop st).m_modelList = st.m_modelList ∧
    (Coordinator.runPop st).m_viewList = st.m_viewList ∧
    (Coordinator.runPop st).m_deletedSimulator = st.m_deletedSimulator ∧
    (Coordinator.runPop st).m_toDelete = st.m_toDelete ∧
    (Coordinator.runPop st).destroyed = st.destroyed ∧
    (Coordinator.runPop st).cleared = st.cleared := by
  unfold Coordinator.runPop
  by_cases h : (st.m_eventTable.popEvent).1.isEmpty = true <;> simp [h]

theorem runDeletePhase_fields (oldToDelete : Nat) (st : Coordinator) :
    (Coordinator.runDeletePhase oldToDelete st).m_currentTime = st.m_currentTime ∧
    (Coordinator.runDeletePhase oldToDelete st).m_modelList = st.m_modelList ∧
    (Coordinator.runDeletePhase oldToDelete st).m_viewList = st.m_viewList ∧
    (Coordinator.runDeletePhase oldToDelete st).m_eventTable = st.m_eventTable ∧
    (Coordinator.runDeletePhase oldToDelete st).cleared = st.cleared := by
  unfold Coordinator.runDeletePhase
  by_cases h : 0 < oldToDelete <;> simp [h]

/-- The deletion drain of `run` with `oldToDelete = 0` is a no-op. -/
theorem runDeletePhase_zero (st : Coordinator) :
    Coordinator.runDeletePhase 0 st = st := by
  unfold Coordinator.runDeletePhase
  simp

theorem run_currentTime (dyn : Dynamics) (conns : Conns) (st : Coordinator) :
    (Coordinator.run dyn conns st).1.m_currentTime =
      (if (st.m_eventTable.popEvent).1.isEmpty then st.m_currentTime
       else (st.m_eventTable.topTime).getD st.m_currentTime) := by
  show (Coordinator.processObservationEvents dyn
      (Coordinator.runDeletePhase st.m_toDelete
        (Coordinator.processBags dyn conns (Coordinator.runPop st)
          (st.m_eventTable.popEvent).1.bags).1)
      (st.m_eventTable.popEvent).1.states).1.m_currentTime = _
  rw [(tableOnly_processObservationEvents dyn _ _).1,
      (runDeletePhase_fields _ _).1,
      (tableOnly_processBags dyn conns _ _).1,
      (runPop_fields st).1]

theorem run_modelList (dyn : Dynamics) (conns : Conns) (st : Coordinator) :
    (Coordinator.run dyn conns st).1.m_modelList = st.m_modelList := by
  show (Coordinator.processObservationEvents dyn
      (Coordinator.runDeletePhase st.m_toDelete
        (Coordinator.processBags dyn conns (Coordinator.runPop st)
          (st.m_eventTable.popEvent).1.bags).1)
      (st.m_eventTable.popEvent).1.states).1.m_modelList = _
  rw [(tableOnly_processObservationEvents dyn _ _).2.1,
      (runDeletePhase_fields _ _).2.1,
      (tableOnly_processBags dyn conns _ _).2.1,
      (runPop_fields st).2.1]

/-- `run` on a state whose `m_toDelete` is 0 (the only value it can ever
take: `init` sets it to 0, `delAtomicModel` never touches it, and `run`
reassigns it only inside the `oldToDelete > 0` branch) frees no simulator
and leaves the pending-deletion bookkeeping unchanged. -/
theorem run_toDelete_zero (dyn : Dynamics) (conns : Conns) (st : Coordinator)
    (h : st.m_toDelete = 0) :
    (Coordinator.run dyn conns st).1.destroyed = st.destroyed ∧
    (Coordinator.run dyn conns st).1.m_deletedSimulator = st.m_deletedSimulator ∧
    (Coordinator.run dyn conns st).1.m_toDelete = 0 := by
  have hob := tableOnly_processObservationEvents dyn
    (st.m_eventTable.popEvent).1.states
    (Coordinator.runDeletePhase st.m_toDelete
      (Coordinator.processBags dyn conns (Coordinator.runPop st)
        (st.m_eventTable.popEvent).1.bags).1)
  have hpb := tableOnly_processBags dyn conns
    (st.m_eventTable.popEvent).1.bags (Coordinator.runPop st)
  have hdel : Coordinator.runDeletePhase st.m_toDelete
      (Coordinator.processBags dyn conns (Coordinator.runPop st)
        (st.m_eventTable.popEvent).1.bags).1 =
      (Coordinator.processBags dyn conns (Coordinator.runPop st)
        (st.m_eventTable.popEvent).1.bags).1 := by
    rw [h]
    exact runDeletePhase_zero _
  refine ⟨?_, ?_, ?_⟩
  · show (Coordinator.processObservationEvents dyn _ _).1.destroyed = _
    rw [hob.2.2.2.2.2.1, hdel, hpb.2.2.2.2.2.1, (runPop_fields st).2.2.2.2.2.1]
  · show (Coordinator.processObservationEvents dyn _ _).1.m_deletedSimulator = _
    rw [hob.2.2.2.1, hdel, hpb.2.2.2.1, (runPop_fields st).2.2.2.1]
  · show (Coordinator.processObservationEvents dyn _ _).1.m_toDelete = 0
    rw [hob.2.2.2.2.1, hdel, hpb.2.2.2.2.1, (runPop_fields st).2.2.2.2.1, h]

/-! ## Claim C7: time monotonicity and the empty step -/

/-- Claim C7: across a `run` call the current time never decreases
(provided every pending timestamp is at least the current time — the
scheduler invariant at the call), and a `run` whose popped complete bag is
empty leaves the current time and the model table unchanged. -/
theorem Coordinator.run_time_spec (dyn : Dynamics) (conns : Conns) (st : Coordinator) :
    ((∀ t ∈ st.m_eventTable.allTimes, st.m_currentTime ≤ t) →
        st.m_currentTime ≤ (Coordinator.run dyn conns st).1.m_currentTime) ∧
    ((st.m_eventTable.popEvent).1.isEmpty = true →
        (Coordinator.run dyn conns st).1.m_currentTime = st.m_currentTime ∧
        (Coordinator.run dyn conns st).1.m_modelList = st.m_modelList) := by
  constructor
  · intro hall
    rw [run_currentTime]
    by_cases he : (st.m_eventTable.popEvent).1.isEmpty = true
    · rw [if_pos he]
    · rw [if_neg he]
      cases hmin : st.m_eventTable.topTime with
      | none => simp [hmin]
      | some t =>
        simp only [hmin, Option.getD_some]
        exact hall t (listMin_mem hmin)
  · intro he
    refine ⟨?_, run_modelList dyn conns st⟩
    rw [run_currentTime, if_pos he]

/-- Witness for C7: on `stW2` (all pending times equal the current time)
`run` does not decrease the time, and on an empty table the step leaves the
time unchanged. -/
theorem Coordinator.run_time_spec_witness :
    stW2.m_currentTime ≤ (Coordinator.run dynPassive connsNone stW2).1.m_currentTime ∧
    (Coordinator.run dynPassive connsNone
        { stW2 with m_eventTable :=
            { internals := [], externals := [], requests := [], observations := [] } }).1.m_currentTime
      = ({ stW2 with m_eventTable :=
            { internals := [], externals := [], requests := [], observations := [] } } :
          Coordinator).m_currentTime :=
  ⟨(Coordinator.run_time_spec dynPassive connsNone stW2).1 (by decide),
   ((Coordinator.run_time_spec dynPassive connsNone _).2 (by decide)).1⟩

/-! ## Claim C1: the two-phase deletion drain never fires -/

/-- A coordinator with two registered models (3 ↦ simulator 7, 5 ↦
simulator 9), one view observing simulator 7, and a pending internal event
for simulator 9. -/
def stC1base : Coordinator :=
  { m_currentTime := 0
    m_eventTable :=
      { internals := [{ time := 1, model := 9 }]
        externals := []
        requests := []
        observations := [] }
    m_modelList := [(3, 7), (5, 9)]
    m_viewList := [("v", [7])]
    m_deletedSimulator := []
    m_toDelete := 0
    destroyed := []
    cleared := [] }

/-- The failing input of claim C1: after `init` (which sets
`m_toDelete = 0`), an executive deleted atomic model 3, queueing its
simulator 7 on the pending-deletion list during the previous bag. -/
def stC1 : Coordinator := (stC1base.init).delAtomicModel 3

/-- Claim C1 fails on the code (code bug): at `stC1`, simulator 7 is on
the pending-deletion list before the next `run` call starts, so by the
claim (and spec §4.4 step 2) that call must destroy exactly it.  The call
destroys nothing and leaves 7 pending with `m_toDelete` still 0:
`Coordinator::init` sets `m_toDelete = 0`, `delAtomicModel` pushes onto
`m_deletedSimulator` without touching `m_toDelete`, and `run` reassigns
`m_toDelete` only inside its `oldToDelete > 0` branch — so the deletion
drain can never fire and no simulator is ever freed
(`run_toDelete_zero` above shows this persists across every later run). -/
theorem Coordinator.run_never_destroys_pending :
    stC1.m_deletedSimulator = [7] ∧
    stC1.m_toDelete = 0 ∧
    (Coordinator.run dynPassive connsNone stC1).1.destroyed = [] ∧
    (Coordinator.run dynPassive connsNone stC1).1.m_deletedSimulator = [7] ∧
    (Coordinator.run dynPassive connsNone stC1).1.m_toDelete = 0 := by
  decide

/-! ## Claim C4: order of paths under confluence -/

theorem drainLoop_succ (dyn : Dynamics) (conns : Conns) (n : Nat)
    (st : Coordinator) (sim : Nat) (bag : EventBagModel)
    (h : bag.isEmpty = false) :
    Coordinator.drainLoop dyn conns (Nat.succ n) st sim bag =
      ((Coordinator.drainLoop dyn conns n
          (Coordinator.drainStep dyn conns st sim bag).1 sim
          (Coordinator.drainStep dyn conns st sim bag).2.1).1,
       (Coordinator.drainStep dyn conns st sim bag).2.2 ++
         (Coordinator.drainLoop dyn conns n
            (Coordinator.drainStep dyn conns st sim bag).1 sim
            (Coordinator.drainStep dyn conns st sim bag).2.1).2) := by
  simp [Coordinator.drainLoop, h]

theorem drainLoop_zero (dyn : Dynamics) (conns : Conns)
    (st : Coordinator) (sim : Nat) (bag : EventBagModel) :
    Coordinator.drainLoop dyn conns 0 st sim bag = (st, []) := rfl

theorem drainStep_both_internal (dyn : Dynamics) (conns : Conns)
    (st : Coordinator) (sim : Nat) (bag : EventBagModel) (ev : InternalEvent)
    (h1 : bag.internal = some ev) (h2 : bag.externals.isEmpty = false)
    (hconf : dyn.confluent sim ev bag.externals = ConfluentKind.INTERNAL) :
    Coordinator.drainStep dyn conns st sim bag =
      ((Coordinator.processInternalEvent dyn conns st sim ev).1,
       { bag with internal := none },
       Act.confluentCall sim ::
         (Coordinator.processInternalEvent dyn conns st sim ev).2) := by
  unfold Coordinator.drainStep
  simp [h1, h2, hconf]

theorem drainStep_both_external (dyn : Dynamics) (conns : Conns)
    (st : Coordinator) (sim : Nat) (bag : EventBagModel) (ev : InternalEvent)
    (h1 : bag.internal = some ev) (h2 : bag.externals.isEmpty = false)
    (hconf : dyn.confluent sim ev bag.externals = ConfluentKind.EXTERNAL) :
    Coordinator.drainStep dyn conns st sim bag =
      ((Coordinator.processExternalEvents dyn st sim bag.externals).1,
       { bag with externals := [] },
       Act.confluentCall sim ::
         (Coordinator.processExternalEvents dyn st sim bag.externals).2) := by
  unfold Coordinator.drainStep
  simp [h1, h2, hconf]

theorem drainStep_internal_only (dyn : Dynamics) (conns : Conns)
    (st : Coordinator) (sim : Nat) (bag : EventBagModel) (ev : InternalEvent)
    (h1 : bag.internal = some ev) (h2 : bag.externals.isEmpty = true) :
    Coordinator.drainStep dyn conns st sim bag =
      ((Coordinator.processInternalEvent dyn conns st sim ev).1,
       { bag with internal := none },
       (Coordinator.processInternalEvent dyn conns st sim ev).2) := by
  unfold Coordinator.drainStep
  simp [h1, h2]

theorem drainStep_external_only (dyn : Dynamics) (conns : Conns)
    (st : Coordinator) (sim : Nat) (bag : EventBagModel)
    (h1 : bag.internal = none) (h2 : bag.externals.isEmpty = false) :
    Coordinator.drainStep dyn conns st sim bag =
      ((Coordinator.processExternalEvents dyn st sim bag.externals).1,
       { bag with externals := [] },
       (Coordinator.processExternalEvents dyn st sim bag.externals).2) := by
  unfold Coordinator.drainStep
  simp [h1, h2]

theorem drainStep_requests (dyn : Dynamics) (conns : Conns)
    (st : Coordinator) (sim : Nat) (bag : EventBagModel)
    (h1 : bag.internal = none) (h2 : bag.externals.isEmpty = true) :
    Coordinator.drainStep dyn conns st sim bag =
      ((Coordinator.processRequestEvents dyn conns st sim bag.requests).1,
       { bag with requests := [] },
       (Coordinator.processRequestEvents dyn conns st sim bag.requests).2) := by
  unfold Coordinator.drainStep
  simp [h1, h2]

/-- Claim C4 (amended): the drain loop of one simulator's bag runs the
paths as follows.  When both an internal event and external events are
pending, `confluentTransitions` is consulted once and its result selects
only which of the two paths runs first: on INTERNAL the internal path
runs, then the external path runs on the same externals in the same bag;
on EXTERNAL the external path runs first, then the internal path.  When
only an internal event is pending, the internal path runs; when only
external events are pending, the external path runs.  In every case
request events are processed only once no internal or external events
remain in the bag. -/
theorem Coordinator.drainBag_confluent_order (dyn : Dynamics) (conns : Conns)
    (st : Coordinator) (sim : Nat) (bag : EventBagModel) (ev : InternalEvent) :
    (bag.internal = some ev → bag.externals.isEmpty = false →
      (dyn.confluent sim ev bag.externals = ConfluentKind.INTERNAL →
        Coordinator.drainBag dyn conns st sim bag =
          (let r1 := Coordinator.processInternalEvent dyn conns st sim ev
           let r2 := Coordinator.processExternalEvents dyn r1.1 sim bag.externals
           let r3 :=
             if bag.requests.isEmpty then (r2.1, ([] : List Act))
             else Coordinator.processRequestEvents dyn conns r2.1 sim bag.requests
           (r3.1, Act.confluentCall sim :: (r1.2 ++ r2.2 ++ r3.2)))) ∧
      (dyn.confluent sim ev bag.externals = ConfluentKind.EXTERNAL →
        Coordinator.drainBag dyn conns st sim bag =
          (let r1 := Coordinator.processExternalEvents dyn st sim bag.externals
           let r2 := Coordinator.processInternalEvent dyn conns r1.1 sim ev
           let r3 :=
             if bag.requests.isEmpty then (r2.1, ([] : List Act))
             else Coordinator.processRequestEvents dyn conns r2.1 sim bag.requests
           (r3.1, Act.confluentCall sim :: (r1.2 ++ r2.2 ++ r3.2))))) ∧
    (bag.internal = some ev → bag.externals.isEmpty = true →
      Coordinator.drainBag dyn conns st sim bag =
        (let r1 := Coordinator.processInternalEvent dyn conns st sim ev
         let r2 :=
           if bag.requests.isEmpty then (r1.1, ([] : List Act))
           else Coordinator.processRequestEvents dyn conns r1.1 sim bag.requests
         (r2.1, r1.2 ++ r2.2))) ∧
    (bag.internal = none → bag.externals.isEmpty = false →
      Coordinator.drainBag dyn conns st sim bag =
        (let r1 := Coordinator.processExternalEvents dyn st sim bag.externals
         let r2 :=
           if bag.requests.isEmpty then (r1.1, ([] : List Act))
           else Coordinator.processRequestEvents dyn conns r1.1 sim bag.requests
         (r2.1, r1.2 ++ r2.2))) := by
  refine ⟨?_, ?_, ?_⟩
  · intro h1 h2
    have hbe : bag.isEmpty = false := by
      simp [EventBagModel.isEmpty, h2]
    have hbeI : ({ bag with internal := none } : EventBagModel).isEmpty = false := by
      simp [EventBagModel.isEmpty, h2]
    have hbeE : ({ bag with externals := [] } : EventBagModel).isEmpty = false := by
      simp [EventBagModel.isEmpty, h1]
    constructor
    · intro hconf
      cases hreq : bag.requests.isEmpty with
      | true =>
        have hw : bagWeight bag = 2 := by simp [bagWeight, h1, h2, hreq]
        show Coordinator.drainLoop dyn conns (bagWeight bag) st sim bag = _
        rw [hw, show (2 : Nat) = Nat.succ (Nat.succ 0) from rfl,
            drainLoop_succ _ _ _ _ _ _ hbe,
            drainStep_both_internal dyn conns st sim bag ev h1 h2 hconf]
        simp only []
        rw [drainLoop_succ _ _ _ _ _ _ hbeI,
            drainStep_external_only dyn conns _ sim { bag with internal := none } rfl h2]
        simp only [drainLoop_zero, hreq]
        simp
      | false =>
        have hw : bagWeight bag = 3 := by simp [bagWeight, h1, h2, hreq]
        show Coordinator.drainLoop dyn conns (bagWeight bag) st sim bag = _
        rw [hw, show (3 : Nat) = Nat.succ (Nat.succ (Nat.succ 0)) from rfl,
            drainLoop_succ _ _ _ _ _ _ hbe,
            drainStep_both_internal dyn conns st sim bag ev h1 h2 hconf]
        simp only []
        rw [drainLoop_succ _ _ _ _ _ _ hbeI,
            drainStep_external_only dyn conns _ sim { bag with internal := none } rfl h2]
        simp only []
        rw [drainLoop_succ _ _ _ _ _ _
              (show ({ internal := none, externals := [], requests := bag.requests } :
                  EventBagModel).isEmpty = false by
                simp [EventBagModel.isEmpty, hreq]),
            drainStep_requests dyn conns _ sim
              { internal := none, externals := [], requests := bag.requests } rfl rfl]
        simp only [drainLoop_zero, hreq]
        simp
    · intro hconf
      cases hreq : bag.requests.isEmpty with
      | true =>
        have hw : bagWeight bag = 2 := by simp [bagWeight, h1, h2, hreq]
        show Coordinator.drainLoop dyn conns (bagWeight bag) st sim bag = _
        rw [hw, show (2 : Nat) = Nat.succ (Nat.succ 0) from rfl,
            drainLoop_succ _ _ _ _ _ _ hbe,
            drainStep_both_external dyn conns st sim bag ev h1 h2 hconf]
        simp only []
        rw [drainLoop_succ _ _ _ _ _ _ hbeE,
            drainStep_internal_only dyn conns _ sim { bag with externals := [] } ev h1 rfl]
        simp only [drainLoop_zero, hreq]
        simp
      | false =>
        have hw : bagWeight bag = 3 := by simp [bagWeight, h1, h2, hreq]
        show Coordinator.drainLoop dyn conns (bagWeight bag) st sim bag = _
        rw [hw, show (3 : Nat) = Nat.succ (Nat.succ (Nat.succ 0)) from rfl,
            drainLoop_succ _ _ _ _ _ _ hbe,
            drainStep_both_external dyn conns st sim bag ev h1 h2 hconf]
        simp only []
        rw [drainLoop_succ _ _ _ _ _ _ hbeE,
            drainStep_internal_only dyn conns _ sim { bag with externals := [] } ev h1 rfl]
        simp only []
        rw [drainLoop_succ _ _ _ _ _ _
              (show ({ internal := none, externals := [], requests := bag.requests } :
                  EventBagModel).isEmpty = false by
                simp [EventBagModel.isEmpty, hreq]),
            drainStep_requests dyn conns _ sim
              { internal := none, externals := [], requests := bag.requests } rfl rfl]
        simp only [drainLoop_zero, hreq]
        simp
  · intro h1 hext
    have hbe : bag.isEmpty = false := by
      simp [EventBagModel.isEmpty, h1]
    cases hreq : bag.requests.isEmpty with
    | true =>
      have hw : bagWeight bag = 1 := by simp [bagWeight, h1, hext, hreq]
      show Coordinator.drainLoop dyn conns (bagWeight bag) st sim bag = _
      rw [hw, show (1 : Nat) = Nat.succ 0 from rfl,
          drainLoop_succ _ _ _ _ _ _ hbe,
          drainStep_internal_only dyn conns st sim bag ev h1 hext]
      simp only [drainLoop_zero, hreq]
      simp
    | false =>
      have hw : bagWeight bag = 2 := by simp [bagWeight, h1, hext, hreq]
      show Coordinator.drainLoop dyn conns (bagWeight bag) st sim bag = _
      rw [hw, show (2 : Nat) = Nat.succ (Nat.succ 0) from rfl,
          drainLoop_succ _ _ _ _ _ _ hbe,
          drainStep_internal_only dyn conns st sim bag ev h1 hext]
      simp only []
      rw [drainLoop_succ _ _ _ _ _ _
            (show ({ internal := none, externals := bag.externals, requests := bag.requests } : EventBagModel).isEmpty = false by
              simp [EventBagModel.isEmpty, hreq]),
          drainStep_requests dyn conns _ sim
            { internal := none, externals := bag.externals, requests := bag.requests }
            rfl hext]
      simp only [drainLoop_zero, hreq]
      simp
  · intro hint hext
    have hbe : bag.isEmpty = false := by
      simp [EventBagModel.isEmpty, hext]
    cases hreq : bag.requests.isEmpty with
    | true =>
      have hw : bagWeight bag = 1 := by simp [bagWeight, hint, hext, hreq]
      show Coordinator.drainLoop dyn conns (bagWeight bag) st sim bag = _
      rw [hw, show (1 : Nat) = Nat.succ 0 from rfl,
          drainLoop_succ _ _ _ _ _ _ hbe,
          drainStep_external_only dyn conns st sim bag hint hext]
      simp only [drainLoop_zero, hreq]
      simp
    | false =>
      have hw : bagWeight bag = 2 := by simp [bagWeight, hint, hext, hreq]
      show Coordinator.drainLoop dyn conns (bagWeight bag) st sim bag = _
      rw [hw, show (2 : Nat) = Nat.succ (Nat.succ 0) from rfl,
          drainLoop_succ _ _ _ _ _ _ hbe,
          drainStep_external_only dyn conns st sim bag hint hext]
      simp only []
      rw [drainLoop_succ _ _ _ _ _ _
            (show ({ internal := bag.internal, externals := [], requests := bag.requests } : EventBagModel).isEmpty = false by
              simp [EventBagModel.isEmpty, hreq]),
          drainStep_requests dyn conns _ sim
            { internal := bag.internal, externals := [], requests := bag.requests }
            hint rfl]
      simp only [drainLoop_zero, hreq]
      simp

/-! ## Claim C6: model deletion leaves no trace in the event table -/

theorem delModelEvents_not_mentions (tbl : EventTable) (s : Nat) :
    (tbl.delModelEvents s).mentionsSim s = false := by
  unfold EventTable.delModelEvents EventTable.mentionsSim
  simp only [Bool.or_eq_false_iff]
  refine ⟨⟨⟨?_, ?_⟩, ?_⟩, ?_⟩ <;>
  · rw [List.any_eq_false]
    intro e he
    have := (List.mem_filter.mp he).2
    simp at this ⊢
    omega

theorem popEvent_not_mentions (tbl : EventTable) (s : Nat)
    (h : tbl.mentionsSim s = false) :
    (tbl.popEvent).1.mentionsSim s = false := by
  have h4 := h
  unfold EventTable.mentionsSim at h4
  simp only [Bool.or_eq_false_iff] at h4
  obtain ⟨⟨⟨hI, hE⟩, hR⟩, hO⟩ := h4
  rw [List.any_eq_false] at hI hE hR hO
  unfold EventTable.popEvent
  cases hm : listMin tbl.allTimes with
  | none => simp [CompleteEventBagModel.mentionsSim]
  | some t =>
    simp only [CompleteEventBagModel.mentionsSim, Bool.or_eq_false_iff]
    constructor
    · rw [List.any_eq_false]
      intro p hp
      simp only [List.mem_map] at hp
      obtain ⟨s', hs', rfl⟩ := hp
      unfold EventTable.bagFor EventBagModel.mentionsSim
      rw [Bool.not_eq_true]
      simp only [Bool.or_eq_false_iff]
      refine ⟨⟨?_, ?_⟩, ?_⟩
      · cases hh : (tbl.internals.filter (fun e => e.time = t && e.model == s')).head? with
        | none => simp
        | some e =>
          simp only []
          have hfind : List.find? (fun e => decide (e.time = t) && e.model == s')
              tbl.internals = some e := by
            simpa using hh
          have hin : e ∈ tbl.internals := List.mem_of_find?_eq_some hfind
          have := hI e hin
          simpa using this
      · rw [List.any_eq_false]
        intro e he
        exact hE e (List.mem_filter.mp he).1
      · rw [List.any_eq_false]
        intro e he
        exact hR e (List.mem_filter.mp he).1
    · rw [List.any_eq_false]
      intro e he
      exact hO e (List.mem_filter.mp he).1

/-- Claim C6: for an atomic model `atom` whose simulator is `satom`,
`Coordinator::delAtomicModel` erases the model-table entry, detaches
`satom` from every view, removes every event-table entry mentioning
`satom`, runs `Simulator::clear`, and appends `satom` to the
pending-deletion list; consequently the event table mentions `satom`
nowhere and the next popped complete bag holds no event referencing it. -/
theorem Coordinator.delAtomicModel_spec (st : Coordinator) (atom satom : Nat)
    (h : st.m_modelList.lookup atom = some satom) :
    (st.delAtomicModel atom).m_modelList
      = st.m_modelList.filter (fun p => p.1 ≠ atom) ∧
    (∀ v ∈ (st.delAtomicModel atom).m_viewList, satom ∉ v.2) ∧
    (st.delAtomicModel atom).m_eventTable.mentionsSim satom = false ∧
    satom ∈ (st.delAtomicModel atom).cleared ∧
    (st.delAtomicModel atom).m_deletedSimulator
      = st.m_deletedSimulator ++ [satom] ∧
    ((st.delAtomicModel atom).m_eventTable.popEvent).1.mentionsSim satom = false := by
  unfold Coordinator.delAtomicModel
  simp only [h]
  refine ⟨trivial, ?_, ?_, ?_, trivial, ?_⟩
  · intro v hv
    simp only [List.mem_map] at hv
    obtain ⟨w, hw, rfl⟩ := hv
    simp
  · exact delModelEvents_not_mentions _ _
  · simp
  · exact popEvent_not_mentions _ _ (delModelEvents_not_mentions _ _)

/-! ## Remaining witnesses and the C4 counterexample -/

/-- An external event used in the witness scenarios. -/
def evO : ExternalEvent :=
  { time := 0, source := 0, port := "out", target := 0, targetPort := ""
    isRequest := false }

/-- A model that emits one event on port `out` and re-schedules itself one
time unit later. -/
def dynOut : Dynamics :=
  { dynPassive with
      output := fun _ _ => [evO]
      internalTransition := fun _ ev => some { time := ev.time + 1, model := ev.model } }

/-- A single coupling: port `out` of any model feeds port `inp` of
simulator 1. -/
def connsW : Conns := fun _ p => if p = "out" then [(1, "inp")] else []

/-- Witness for C3: at a concrete state, the internal transition result is
queued in the event table. -/
theorem Coordinator.processInternalEvent_spec_witness :
    dynOut.internalTransition 0 { time := 0, model := 0 }
      = some { time := 1, model := 0 } ∧
    ({ time := 1, model := 0 } : InternalEvent) ∈
      (Coordinator.processInternalEvent dynOut connsW stW2 0
        { time := 0, model := 0 }).1.m_eventTable.internals :=
  ⟨rfl,
   (Coordinator.processInternalEvent_spec dynOut connsW stW2 0
      { time := 0, model := 0 }).2.2.2 { time := 1, model := 0 } rfl⟩

/-- Models whose `confluentTransitions` always selects INTERNAL. -/
def dynConfInt : Dynamics :=
  { dynPassive with confluent := fun _ _ _ => ConfluentKind.INTERNAL }

/-- A bag holding both an internal event and an external event for
simulator 0 at time 0. -/
def bagC4 : EventBagModel :=
  { internal := some { time := 0, model := 0 }
    externals := [{ time := 0, source := 5, port := "p", target := 0
                    targetPort := "q", isRequest := false }]
    requests := [] }

/-- Counterexample to claim C4 as stated: `confluentTransitions` returns
INTERNAL for the bag `bagC4`, yet the external transition of the same
simulator still runs in the same drained bag (the claim asserts the
external path runs only when the result is EXTERNAL).  After the internal
path removes the internal event, the drain loop re-examines the bag, finds
the externals and runs `processExternalEvents` on them. -/
theorem Coordinator.drainBag_counterexample :
    dynConfInt.confluent 0 { time := 0, model := 0 } bagC4.externals
      = ConfluentKind.INTERNAL ∧
    Act.externalCall 0 0 ∈ (Coordinator.drainBag dynConfInt connsNone stW2 0 bagC4).2 := by
  decide

/-- A bag holding only an internal event for simulator 0. -/
def bagC4I : EventBagModel :=
  { internal := some { time := 0, model := 0 }, externals := [], requests := [] }

/-- A bag holding only an external event for simulator 0. -/
def bagC4E : EventBagModel :=
  { internal := none
    externals := [{ time := 0, source := 5, port := "p", target := 0
                    targetPort := "q", isRequest := false }]
    requests := [] }

/-- Witness for the amended C4 at concrete bags: on `bagC4` (both kinds
pending) confluence chose INTERNAL, so the internal path runs first and
the external path runs immediately after it; on `bagC4I` (internal only)
the internal path runs; on `bagC4E` (external only) the external path
runs. -/
theorem Coordinator.drainBag_confluent_order_witness :
    (Coordinator.drainBag dynConfInt connsNone stW2 0 bagC4 =
      (let r1 := Coordinator.processInternalEvent dynConfInt connsNone stW2 0
                   { time := 0, model := 0 }
       let r2 := Coordinator.processExternalEvents dynConfInt r1.1 0 bagC4.externals
       let r3 :=
         if bagC4.requests.isEmpty then (r2.1, ([] : List Act))
         else Coordinator.processRequestEvents dynConfInt connsNone r2.1 0 bagC4.requests
       (r3.1, Act.confluentCall 0 :: (r1.2 ++ r2.2 ++ r3.2)))) ∧
    (Coordinator.drainBag dynConfInt connsNone stW2 0 bagC4I =
      (let r1 := Coordinator.processInternalEvent dynConfInt connsNone stW2 0
                   { time := 0, model := 0 }
       let r2 :=
         if bagC4I.requests.isEmpty then (r1.1, ([] : List Act))
         else Coordinator.processRequestEvents dynConfInt connsNone r1.1 0 bagC4I.requests
       (r2.1, r1.2 ++ r2.2))) ∧
    (Coordinator.drainBag dynConfInt connsNone stW2 0 bagC4E =
      (let r1 := Coordinator.processExternalEvents dynConfInt stW2 0 bagC4E.externals
       let r2 :=
         if bagC4E.requests.isEmpty then (r1.1, ([] : List Act))
         else Coordinator.processRequestEvents dynConfInt connsNone r1.1 0 bagC4E.requests
       (r2.1, r1.2 ++ r2.2))) :=
  ⟨((Coordinator.drainBag_confluent_order dynConfInt connsNone stW2 0 bagC4
      { time := 0, model := 0 }).1 rfl rfl).1 rfl,
   (Coordinator.drainBag_confluent_order dynConfInt connsNone stW2 0 bagC4I
      { time := 0, model := 0 }).2.1 rfl rfl,
   (Coordinator.drainBag_confluent_order dynConfInt connsNone stW2 0 bagC4E
      { time := 0, model := 0 }).2.2 rfl rfl⟩

/-- A coordinator whose event table mentions simulator 7 in every queue. -/
def stC6 : Coordinator :=
  { stC1base with
      m_eventTable :=
        { internals := [{ time := 1, model := 7 }, { time := 1, model := 9 }]
          externals := [{ time := 1, source := 9, port := "p", target := 7
                          targetPort := "q", isRequest := false }]
          requests := [{ time := 1, source := 7, port := "r", target := 9
                         targetPort := "s", isRequest := true }]
          observations := [{ time := 2, model := 7, viewName := "v", port := "p" }] } }

/-- Witness for C6 at `stC6`: deleting atomic model 3 (simulator 7) leaves
an event table that never mentions simulator 7, the next popped bag is
free of it, and 7 is appended to the pending-deletion list. -/
theorem Coordinator.delAtomicModel_spec_witness :
    (stC6.delAtomicModel 3).m_eventTable.mentionsSim 7 = false ∧
    ((stC6.delAtomicModel 3).m_eventTable.popEvent).1.mentionsSim 7 = false ∧
    (stC6.delAtomicModel 3).m_deletedSimulator = stC6.m_deletedSimulator ++ [7] :=
  ⟨(Coordinator.delAtomicModel_spec stC6 3 7 (by decide)).2.2.1,
   (Coordinator.delAtomicModel_spec stC6 3 7 (by decide)).2.2.2.2.2,
   (Coordinator.delAtomicModel_spec stC6 3 7 (by decide)).2.2.2.2.1⟩
